import Mathlib

/-!
OverlayTrigger (src/OverlayTrigger.js)

A shallow embedding of the event handlers of the `OverlayTrigger` component:
the delayed show/hide handlers with their two timeout fields, the click
toggle, the explicit hide, the mouse over/out classifier and the
scroll-parent lookup.

Conventions of the embedding
* `this.state.show` is the field `state_show`; `setState` is applied at once
  (each handler reads `this.state.show` before its only `setState` call, and
  React flushes the state before the next event is dispatched).
* `null`/`undefined` is `none`.  A numeric prop is an `Int`.
* The host's table of pending timeouts is explicit state: `setTimeout` adds an
  entry under a fresh handle, `clearTimeout` removes it, and the elapse of a
  timeout removes it and runs its callback.
* `calls` records every invocation of `this.show()` and `this.hide()`.
-/

namespace OverlayTrigger

/-! ## Data model -/

/-- The delay props read by the handlers (`this.props.delay`, `delayShow`, `delayHide`). -/
structure Props where
  delay : Option Int
  delayShow : Option Int
  delayHide : Option Int
deriving DecidableEq, Repr

/-- The two arrow functions handed to `setTimeout`: the one of `handleDelayedShow`
(lines 193-196) and the one of `handleDelayedHide` (lines 218-221). -/
inductive Callback where
  | showLater
  | hideLater
deriving DecidableEq, Repr

/-- A pending timeout of the host: its handle, its callback and its duration. -/
structure Timeout where
  handle : Nat
  callback : Callback
  delay : Int
deriving DecidableEq, Repr

/-- An invocation of `this.show()` or of `this.hide()`. -/
inductive Call where
  | showCall
  | hideCall
deriving DecidableEq, Repr

/-- The mutable fields of the component instance read and written by the handlers. -/
structure Instance where
  state_show : Bool
  _hoverShowDelay : Option Nat
  _hoverHideDelay : Option Nat
deriving DecidableEq, Repr

/-- The component instance together with the host's timeouts and the call trace. -/
structure World where
  comp : Instance
  timeouts : List Timeout
  nextHandle : Nat
  calls : List Call
deriving DecidableEq, Repr

/-- The state after the constructor (lines 124-144): `state.show` is
`props.defaultOverlayShown`, neither timeout field has been assigned. -/
def initial (defaultOverlayShown : Bool) (nextHandle : Nat) : World :=
  { comp := { state_show := defaultOverlayShown, _hoverShowDelay := none, _hoverHideDelay := none }
    timeouts := []
    nextHandle := nextHandle
    calls := [] }

/-! ## Host timers -/

/-- The host's `setTimeout(callback, delay)`: registers the timeout under a fresh handle
and returns the handle. -/
def setTimeout (callback : Callback) (delay : Int) (w : World) : Nat × World :=
  (w.nextHandle,
    { w with
      timeouts := w.timeouts ++ [{ handle := w.nextHandle, callback := callback, delay := delay }]
      nextHandle := w.nextHandle + 1 })

/-- The host's `clearTimeout(handle)`: removes the timeout; nothing happens for `null`
or for a handle that is not pending. -/
def clearTimeout (handle : Option Nat) (w : World) : World :=
  match handle with
  | none => w
  | some h => { w with timeouts := w.timeouts.filter (fun t => t.handle != h) }

/-! ## Methods of the component -/

/-- The method `show()` (lines 241-243): `this.setState({ show: true })`. -/
def show_ (w : World) : World :=
  { w with comp := { w.comp with state_show := true }, calls := w.calls ++ [Call.showCall] }

/-- The method `hide()` (lines 245-247): `this.setState({ show: false })`. -/
def hide (w : World) : World :=
  { w with comp := { w.comp with state_show := false }, calls := w.calls ++ [Call.hideCall] }

/-- The method `handleToggle()` (lines 166-172). -/
def handleToggle (w : World) : World :=
  if w.comp.state_show then hide w else show_ w

/-- The method `handleHide()` (lines 237-239). -/
def handleHide (w : World) : World :=
  hide w

/-- The method `handleDelayedShow()` (lines 174-197). -/
def handleDelayedShow (props : Props) (w : World) : World :=
  if w.comp._hoverHideDelay != none then
    let w1 := clearTimeout w.comp._hoverHideDelay w
    { w1 with comp := { w1.comp with _hoverHideDelay := none } }
  else if w.comp.state_show || w.comp._hoverShowDelay != none then
    w
  else
    let delay := if props.delayShow != none then props.delayShow else props.delay
    match delay with
    | none => show_ w
    | some d =>
      if d == 0 then show_ w
      else
        let (h, w1) := setTimeout Callback.showLater d w
        { w1 with comp := { w1.comp with _hoverShowDelay := some h } }

/-- The method `handleDelayedHide()` (lines 199-222). -/
def handleDelayedHide (props : Props) (w : World) : World :=
  if w.comp._hoverShowDelay != none then
    let w1 := clearTimeout w.comp._hoverShowDelay w
    { w1 with comp := { w1.comp with _hoverShowDelay := none } }
  else if !w.comp.state_show || w.comp._hoverHideDelay != none then
    w
  else
    let delay := if props.delayHide != none then props.delayHide else props.delay
    match delay with
    | none => hide w
    | some d =>
      if d == 0 then hide w
      else
        let (h, w1) := setTimeout Callback.hideLater d w
        { w1 with comp := { w1.comp with _hoverHideDelay := some h } }

/-- The body of a timeout callback: lines 194-195 for the show timer, lines 219-220 for
the hide timer. -/
def runCallback (callback : Callback) (w : World) : World :=
  match callback with
  | Callback.showLater => show_ { w with comp := { w.comp with _hoverShowDelay := none } }
  | Callback.hideLater => hide { w with comp := { w.comp with _hoverHideDelay := none } }

/-- The elapse of the pending timeout `h`: the host drops it from its table and runs its
callback.  A handle that is not pending cannot elapse: the world is unchanged. -/
def elapse (h : Nat) (w : World) : World :=
  match w.timeouts.find? (fun t => t.handle == h) with
  | none => w
  | some t =>
    runCallback t.callback { w with timeouts := w.timeouts.filter (fun t => t.handle != h) }

/-- Every pending timeout elapses, oldest first (a callback starts no new timeout). -/
def settle (w : World) : World :=
  w.timeouts.foldl (fun acc t => elapse t.handle acc) w

/-! ## Events -/

/-- The events that reach the handlers.  `requestShow` is a focus or a genuine mouse-over,
`requestHide` a blur, a genuine mouse-out or a scroll of the scroll parent, `click` the
click of the trigger, `explicitHide` the Overlay's `onHide`, `timerElapse h` the elapse of
the timeout `h`. -/
inductive Event where
  | requestShow
  | requestHide
  | click
  | explicitHide
  | timerElapse (h : Nat)
deriving DecidableEq, Repr

/-- One event, handled under the props current at that moment. -/
def step (props : Props) (e : Event) (w : World) : World :=
  match e with
  | Event.requestShow => handleDelayedShow props w
  | Event.requestHide => handleDelayedHide props w
  | Event.click => handleToggle w
  | Event.explicitHide => handleHide w
  | Event.timerElapse h => elapse h w

/-- A finite sequence of events, each with the props current when it is handled. -/
def run (es : List (Props × Event)) (w : World) : World :=
  es.foldl (fun acc pe => step pe.1 pe.2 acc) w

/-- The timeout table holds exactly what the two fields refer to: nothing when both are
`null`, the one show timeout when only `_hoverShowDelay` is set, the one hide timeout when
only `_hoverHideDelay` is set. -/
def Consistent (w : World) : Prop :=
  match w.comp._hoverShowDelay, w.comp._hoverHideDelay, w.timeouts with
  | none, none, [] => True
  | some h, none, [t] => t.handle = h ∧ t.callback = Callback.showLater
  | none, some h, [t] => t.handle = h ∧ t.callback = Callback.hideLater
  | _, _, _ => False

instance (w : World) : Decidable (Consistent w) := by
  unfold Consistent
  split <;> infer_instance

/-- The spec's `a ?? b`: `a` unless it is absent, else `b`. -/
def nullish (a b : Option Int) : Option Int :=
  match a with
  | some x => some x
  | none => b

/-- The spec's `resolvedShowDelay = DelayConfig.show ?? DelayConfig.both ?? 0`. -/
def resolvedShowDelay (props : Props) : Int :=
  (nullish props.delayShow props.delay).getD 0

/-- The spec's `resolvedHideDelay = DelayConfig.hide ?? DelayConfig.both ?? 0`. -/
def resolvedHideDelay (props : Props) : Int :=
  (nullish props.delayHide props.delay).getD 0

/-- A pending show timer goes with a hidden overlay and a pending hide timer with a
shown one. -/
def Coupled (w : World) : Prop :=
  (w.comp._hoverShowDelay ≠ none → w.comp.state_show = false) ∧
  (w.comp._hoverHideDelay ≠ none → w.comp.state_show = true)

/-- The events that go through the delayed handlers or a timer: neither a click nor an
explicit hide. -/
def Event.isDelayed (e : Event) : Bool :=
  match e with
  | Event.click => false
  | Event.explicitHide => false
  | _ => true

/-! ## DOM -/

/-- The computed style of an element, as far as `getScrollParent` reads it. -/
structure Style where
  position : String
  overflow : String
  overflowY : String
  overflowX : String
deriving DecidableEq, Repr

/-- A node of the document tree: its `parentNode` and, for an element, its computed
style.  The document itself is not an element and has no computed style. -/
structure DomNode where
  parentNode : Option Nat
  style : Option Style
deriving DecidableEq, Repr

/-- A document tree: the node `i` is the `i`-th entry, in document order. -/
abbrev Dom := List DomNode

/-- The global `document`: the node 0. -/
def document : Nat := 0

/-- An exception, or the exhaustion of the recursion budget of the embedding. -/
inductive Abort where
  | typeError
  | outOfFuel
deriving DecidableEq, Repr

deriving instance DecidableEq for Except

/-- The value of `node.parentNode` (`null` when there is none). -/
def parentNode (dom : Dom) (node : Option Nat) : Option Nat :=
  match node with
  | none => none
  | some n =>
    match dom.get? n with
    | none => none
    | some nd => nd.parentNode

/-- Whether the parent of the node `i`, if any, precedes `i`. -/
def parentBefore (dom : Dom) (i : Nat) : Bool :=
  match parentNode dom (some i) with
  | none => true
  | some p => decide (p < i)

/-- In document order a parent precedes its children, so a parent chain is finite. -/
def WellFormed (dom : Dom) : Prop :=
  ∀ i, i < dom.length → parentBefore dom i = true

instance (dom : Dom) : Decidable (WellFormed dom) := by
  unfold WellFormed
  infer_instance

/-- The method `getPropertyValue(property)` of a computed style. -/
def getPropertyValue (s : Style) (property : String) : String :=
  if property == "position" then s.position
  else if property == "overflow" then s.overflow
  else if property == "overflow-y" then s.overflowY
  else if property == "overflow-x" then s.overflowX
  else ""

/-- The helper `css` (line 103): `window.getComputedStyle(node).getPropertyValue(property)`.
`getComputedStyle` throws a `TypeError` for `null` and for a node that is not an element. -/
def css (dom : Dom) (node : Option Nat) (property : String) : Except Abort String :=
  match node with
  | none => Except.error Abort.typeError
  | some n =>
    match dom.get? n with
    | none => Except.error Abort.typeError
    | some nd =>
      match nd.style with
      | none => Except.error Abort.typeError
      | some s => Except.ok (getPropertyValue s property)

/-- Whether `pat` occurs in `s` as a block of consecutive characters. -/
def occursIn (pat : List Char) : List Char → Bool
  | [] => pat.isEmpty
  | c :: cs => pat.isPrefixOf (c :: cs) || occursIn pat cs

/-- The test of `overflowRegex = /(auto|scroll)/` (line 108) on a string. -/
def overflowRegex_test (s : String) : Bool :=
  occursIn "auto".toList s.toList || occursIn "scroll".toList s.toList

/-- The function `getScrollParent` (lines 105-121).  The first argument bounds the depth
of the recursion of line 113. -/
def getScrollParent : Nat → Dom → Option Nat → Except Abort Nat
  | 0, _, _ => Except.error Abort.outOfFuel
  | fuel + 1, dom, node => do
    let position ← css dom node "position"
    let excludeStaticParent := position == "absolute"
    let parent := parentNode dom node
    let staticParent ←
      if excludeStaticParent then do
        let parentPosition ← css dom parent "position"
        pure (parentPosition == "static")
      else pure false
    if staticParent then
      getScrollParent fuel dom parent
    else
      let overflow ← css dom parent "overflow"
      let overflowY ← css dom parent "overflow-y"
      let overflowX ← css dom parent "overflow-x"
      if overflowRegex_test (overflow ++ overflowY ++ overflowX) then
        match parent with
        | some p => pure p
        | none => Except.error Abort.typeError
      else
        pure document

/-- Whether the element allows scrolling: its `overflow`, `overflow-y` or `overflow-x`
contains `auto` or `scroll`. -/
def allowsScrolling (s : Style) : Bool :=
  overflowRegex_test s.overflow || overflowRegex_test s.overflowY ||
    overflowRegex_test s.overflowX

/-- The walk of the scroll anchor as the specification words it, over the proper ancestors
from the nearest one up: an ancestor whose position is `static` is skipped when the trigger
is `absolute`; the first other ancestor that allows scrolling is the anchor; the document
is the anchor when the walk ends. -/
def nearestScrollableFrom (dom : Dom) (absolute : Bool) : Nat → Option Nat → Nat
  | 0, _ => document
  | _ + 1, none => document
  | fuel + 1, some a =>
    match dom.get? a with
    | none => document
    | some nd =>
      match nd.style with
      | none => document
      | some s =>
        if absolute && s.position == "static" then
          nearestScrollableFrom dom absolute fuel nd.parentNode
        else if allowsScrolling s then a
        else nearestScrollableFrom dom absolute fuel nd.parentNode

/-- The scroll anchor of a trigger node as the specification words it. -/
def nearestScrollableAncestor (dom : Dom) (node : Nat) : Nat :=
  let absolute :=
    match css dom (some node) "position" with
    | Except.ok position => position == "absolute"
    | Except.error _ => false
  nearestScrollableFrom dom absolute dom.length (parentNode dom (some node))

/-- The part of a synthetic mouse event read by `handleMouseOverOut`: `e.currentTarget`,
`e.relatedTarget` and `e.nativeEvent.toElement`. -/
structure MouseEvent where
  currentTarget : Nat
  relatedTarget : Option Nat
  nativeEvent_toElement : Option Nat
deriving DecidableEq, Repr

/-- The walk behind `contains`: from `node` up the parent chain, looking for `context`. -/
def containsWalk (dom : Dom) (context : Nat) : Nat → Nat → Bool
  | 0, _ => false
  | fuel + 1, node =>
    node == context ||
      match parentNode dom (some node) with
      | none => false
      | some p => containsWalk dom context fuel p

/-- Modelled from the spec: `contains` is imported from the library dom-helpers
(`dom-helpers/query/contains`, line 1) and is not part of the source.  It is the DOM's
`context.contains(node)`: whether `node` is `context` or one of its descendants, found by
following `parentNode` from `node`. -/
def contains (dom : Dom) (context node : Nat) : Bool :=
  containsWalk dom context (node + 1) node

/-- The relation of the specification: `x` is a descendant of `r`. -/
inductive Descendant (dom : Dom) (r : Nat) : Nat → Prop where
  | child (x : Nat) : parentNode dom (some x) = some r → Descendant dom r x
  | deeper (x y : Nat) : parentNode dom (some x) = some y → Descendant dom r y →
      Descendant dom r x

/-- The method `handleMouseOverOut(handler, e)` (lines 228-235).  The handler acts on a
state of any type; the result is the state after the call. -/
def handleMouseOverOut {σ : Type} (dom : Dom) (handler : MouseEvent → σ → σ) (e : MouseEvent)
    (s : σ) : σ :=
  let target := e.currentTarget
  let related :=
    match e.relatedTarget with
    | some r => some r
    | none => e.nativeEvent_toElement
  match related with
  | none => handler e s
  | some r => if r != target && !contains dom target r then handler e s else s

/-- The node the pointer went to, as the classifier's contract words it: `e.relatedTarget`
if present, else `e.nativeEvent.toElement`. -/
def toNode (e : MouseEvent) : Option Nat :=
  match e.relatedTarget with
  | some r => some r
  | none => e.nativeEvent_toElement

/-- How many times `handleMouseOverOut` invokes its handler on the event `e`. -/
def invocations (dom : Dom) (e : MouseEvent) : Nat :=
  handleMouseOverOut dom (fun _ k => k + 1) e 0

/-- A document whose trigger (node 4) sits in a plain wrapper (node 3) inside a
scrollable container (node 2) inside the root element (node 1) of the document (node 0):
`html > div[overflow: auto] > div > button`. -/
def nestedDom : Dom :=
  [ { parentNode := none, style := none },
    { parentNode := some 0,
      style := some { position := "static", overflow := "visible", overflowY := "visible",
                      overflowX := "visible" } },
    { parentNode := some 1,
      style := some { position := "relative", overflow := "auto", overflowY := "auto",
                      overflowX := "auto" } },
    { parentNode := some 2,
      style := some { position := "static", overflow := "visible", overflowY := "visible",
                      overflowX := "visible" } },
    { parentNode := some 3,
      style := some { position := "static", overflow := "visible", overflowY := "visible",
                      overflowX := "visible" } } ]

/-! ## Mounting and unmounting -/

/-- A function value that can be attached to an event: one of the methods bound in the
constructor (lines 127-137), or a function supplied from outside (a prop of the child or of
the component), known by an identifier. -/
inductive Handler where
  | handleToggle
  | handleDelayedShow
  | handleDelayedHide
  | handleHide
  | handleMouseOver
  | handleMouseOut
  | external (id : Nat)
deriving DecidableEq, Repr

/-- The instance with what mounting adds: `this.scrollableNode` and the scroll listeners
the instance has registered with the host (target node and callback).  The overlay
container `_mountNode` and `renderOverlay` belong to the rendering collaborator and are
left out. -/
structure Mounted where
  world : World
  scrollableNode : Option Nat
  scrollListeners : List (Nat × Handler)
deriving DecidableEq, Repr

/-- The instance after the constructor, before it is mounted. -/
def constructed (defaultOverlayShown : Bool) (nextHandle : Nat) : Mounted :=
  { world := initial defaultOverlayShown nextHandle
    scrollableNode := none
    scrollListeners := [] }

/-- The host's `node.addEventListener('scroll', handler)`: a listener already registered
on the node is not added again. -/
def addEventListener (node : Nat) (handler : Handler) (m : Mounted) : Mounted :=
  if m.scrollListeners.contains (node, handler) then m
  else { m with scrollListeners := m.scrollListeners ++ [(node, handler)] }

/-- The host's `node.removeEventListener('scroll', handler)`. -/
def removeEventListener (node : Nat) (handler : Handler) (m : Mounted) : Mounted :=
  { m with scrollListeners := m.scrollListeners.filter (fun l => l != (node, handler)) }

/-- The method `componentDidMount()` (lines 146-151), for the trigger node `trigger`
(`ReactDOM.findDOMNode(this)`); `fuel` bounds the recursion of `getScrollParent`. -/
def componentDidMount (fuel : Nat) (dom : Dom) (trigger : Nat) (m : Mounted) :
    Except Abort Mounted := do
  let scrollableNode ← getScrollParent fuel dom (some trigger)
  let m1 := { m with scrollableNode := some scrollableNode }
  match m1.scrollableNode with
  | none => Except.error Abort.typeError
  | some n => pure (addEventListener n Handler.handleDelayedHide m1)

/-- The method `componentWillUnmount()` (lines 157-164).  Calling `removeEventListener`
on an undefined `scrollableNode` throws. -/
def componentWillUnmount (m : Mounted) : Except Abort Mounted :=
  let w1 := clearTimeout m.world.comp._hoverShowDelay m.world
  let w2 := clearTimeout w1.comp._hoverHideDelay w1
  let m1 := { m with world := w2 }
  match m1.scrollableNode with
  | none => Except.error Abort.typeError
  | some n => Except.ok (removeEventListener n Handler.handleDelayedHide m1)

/-- The events of a mounted instance act on its fields and the host's timers; the scroll
parent and the listeners stay as they are. -/
def mountedRun (es : List (Props × Event)) (m : Mounted) : Mounted :=
  { m with world := run es m.world }

/-- A scroll event on `node`: the host calls every `handleDelayedHide` registered on that
node (the only callback the component registers). -/
def dispatchScroll (props : Props) (node : Nat) (m : Mounted) : Mounted :=
  (m.scrollListeners.filter (fun l => l == (node, Handler.handleDelayedHide))).foldl
    (fun acc _ => { acc with world := handleDelayedHide props acc.world }) m

/-! ## Rendering -/

/-- A trigger mode: `'click'`, `'hover'` or `'focus'` (line 25). -/
inductive TriggerMode where
  | click
  | hover
  | focus
deriving DecidableEq, Repr

/-- The prop `trigger` (lines 33-35): one mode, or an array of modes. -/
inductive Trigger where
  | one (mode : TriggerMode)
  | many (modes : List TriggerMode)
deriving DecidableEq, Repr

/-- The array method `indexOf`: the first index of `x`, or `-1`. -/
def indexOf (xs : List TriggerMode) (x : TriggerMode) : Int :=
  match xs with
  | [] => -1
  | y :: ys =>
    if y == x then 0
    else
      let i := indexOf ys x
      if i == -1 then -1 else i + 1

/-- The function `isOneOf(one, of)` (lines 18-23). -/
def isOneOf (one : TriggerMode) (of_ : Trigger) : Bool :=
  match of_ with
  | Trigger.many arr => decide (indexOf arr one ≥ 0)
  | Trigger.one mode => one == mode

/-- The default of the prop `trigger` (line 100): `['hover', 'focus']`. -/
def defaultTrigger : Trigger :=
  Trigger.many [TriggerMode.hover, TriggerMode.focus]

/-- A function as the sequence of handlers it calls, in order. -/
abbrev Fn := List Handler

/-- Modelled from the spec: `createChainedFunction` (`./utils/createChainedFunction`,
line 9) is not among the source files.  Given candidate handlers, some possibly absent, it
produces a single handler that invokes each present handler in the declared order; with no
handler present there is no function. -/
def createChainedFunction (funcs : List (Option Fn)) : Option Fn :=
  match funcs.filterMap (fun f => f) with
  | [] => none
  | present => some present.flatten

/-- The overlay element, as far as `render` reads it: `overlay.props.id`. -/
structure OverlayElement where
  id : Option String
deriving DecidableEq, Repr

/-- A value of the prop `overlay` (a node, lines 57-60): an element or a text. -/
inductive OverlayNode where
  | element (e : OverlayElement)
  | text (s : String)
deriving DecidableEq, Repr

/-- The handlers among the props of the child element (`child.props`), by identifier. -/
structure ChildProps where
  onClick : Option Nat
  onMouseOver : Option Nat
  onMouseOut : Option Nat
  onFocus : Option Nat
  onBlur : Option Nat
deriving DecidableEq, Repr

/-- The props destructured by `render` (lines 269-279); the handlers passed to the
component itself are known by identifier. -/
structure RenderProps where
  trigger : Trigger
  overlay : Option OverlayNode
  children : List ChildProps
  onBlur : Option Nat
  onClick : Option Nat
  onFocus : Option Nat
  onMouseOut : Option Nat
  onMouseOver : Option Nat
deriving DecidableEq, Repr

/-- The only advisory `render` can emit: the hover-only message of lines 306-311. -/
inductive Warning where
  | hoverOnly
deriving DecidableEq, Repr

/-- The function `warning(condition, message)` of the package `warning`: the message is
emitted when the condition is false. -/
def warning (condition : Bool) (message : Warning) : List Warning :=
  if condition then [] else [message]

/-- The object `triggerProps` built by `render`: an absent key is `none`; the value of
`aria-describedby` is `overlay.props.id`, itself possibly undefined. -/
structure TriggerProps where
  aria_describedby : Option (Option String)
  onClick : Option Fn
  onMouseOver : Option Fn
  onMouseOut : Option Fn
  onFocus : Option Fn
  onBlur : Option Fn
deriving DecidableEq, Repr

/-- The props of the `<Overlay>` element made by `makeOverlay` (lines 249-260); `target`
is the instance itself. -/
structure OverlayProps where
  showProp : Bool
  onHide : Handler
  children : Option OverlayNode
deriving DecidableEq, Repr

/-- What `render` produces: the child cloned with `triggerProps`, the element stored in
`this._overlay`, and the advisories emitted on the way. -/
structure Rendered where
  child : ChildProps
  triggerProps : TriggerProps
  _overlay : OverlayProps
  warnings : List Warning
deriving DecidableEq, Repr

/-- React's `React.Children.only(children)`: the only child, or an exception. -/
def Children_only (children : List ChildProps) : Except Abort ChildProps :=
  match children with
  | [child] => Except.ok child
  | _ => Except.error Abort.typeError

/-- The expression `overlay.props.id` (line 291): reading `props` of an absent overlay
throws, and so does reading `id` of the undefined `props` of a text. -/
def overlay_props_id (overlay : Option OverlayNode) : Except Abort (Option String) :=
  match overlay with
  | some (OverlayNode.element e) => Except.ok e.id
  | some (OverlayNode.text _) => Except.error Abort.typeError
  | none => Except.error Abort.typeError

/-- A handler known by identifier, as a function. -/
def externalFn (h : Option Nat) : Option Fn :=
  match h with
  | none => none
  | some id => some [Handler.external id]

/-- The method `makeOverlay(overlay, props)` (lines 249-260). -/
def makeOverlay (state_show : Bool) (overlay : Option OverlayNode) : OverlayProps :=
  { showProp := state_show, onHide := Handler.handleHide, children := overlay }

/-- The method `render()` (lines 268-333) in the state `state_show`. -/
def render (state_show : Bool) (props : RenderProps) : Except Abort Rendered := do
  let child ← Children_only props.children
  let childProps := child
  let aria ←
    if state_show then do
      let id ← overlay_props_id props.overlay
      pure (some id)
    else pure none
  let onClick0 := createChainedFunction [externalFn childProps.onClick, externalFn props.onClick]
  let onClick :=
    if isOneOf TriggerMode.click props.trigger then
      createChainedFunction [onClick0, some [Handler.handleToggle]]
    else onClick0
  let hover := isOneOf TriggerMode.hover props.trigger
  let warnings :=
    if hover then
      warning (!(props.trigger == Trigger.one TriggerMode.hover)) Warning.hoverOnly
    else []
  let onMouseOver :=
    if hover then
      createChainedFunction [externalFn childProps.onMouseOver, externalFn props.onMouseOver,
        some [Handler.handleMouseOver]]
    else none
  let onMouseOut :=
    if hover then
      createChainedFunction [externalFn childProps.onMouseOut, externalFn props.onMouseOut,
        some [Handler.handleMouseOut]]
    else none
  let focus := isOneOf TriggerMode.focus props.trigger
  let onFocus :=
    if focus then
      createChainedFunction [externalFn childProps.onFocus, externalFn props.onFocus,
        some [Handler.handleDelayedShow]]
    else none
  let onBlur :=
    if focus then
      createChainedFunction [externalFn childProps.onBlur, externalFn props.onBlur,
        some [Handler.handleDelayedHide]]
    else none
  pure
    { child := child
      triggerProps :=
        { aria_describedby := aria, onClick := onClick, onMouseOver := onMouseOver,
          onMouseOut := onMouseOut, onFocus := onFocus, onBlur := onBlur }
      _overlay := makeOverlay state_show props.overlay
      warnings := warnings }

/-- The set of modes a trigger configuration stands for contains `mode`. -/
def Trigger.has (t : Trigger) (mode : TriggerMode) : Prop :=
  match t with
  | Trigger.one m => m = mode
  | Trigger.many ms => mode ∈ ms

/-- Whether `node` is an element of the document, that is, whether `getComputedStyle`
accepts it. -/
def isElement (dom : Dom) (node : Option Nat) : Bool :=
  match css dom node "position" with
  | Except.ok _ => true
  | Except.error _ => false

/-- Whether the concatenation of the computed `overflow`, `overflow-y` and `overflow-x` of
`node` contains `auto` or `scroll`. -/
def overflowScrolls (dom : Dom) (node : Option Nat) : Bool :=
  match css dom node "overflow", css dom node "overflow-y", css dom node "overflow-x" with
  | Except.ok a, Except.ok b, Except.ok c => overflowRegex_test (a ++ b ++ c)
  | _, _, _ => false

/-- The handlers a possibly absent function calls, in order. -/
def chainOf (f : Option Fn) : Fn :=
  match f with
  | none => []
  | some hs => hs

/-- A document whose trigger (node 4) is `absolute`, in a `static` wrapper (node 3)
inside a scrollable container (node 2):
`html > div[position: relative; overflow: scroll] > div > span[position: absolute]`. -/
def absoluteDom : Dom :=
  [ { parentNode := none, style := none },
    { parentNode := some 0,
      style := some { position := "static", overflow := "visible", overflowY := "visible",
                      overflowX := "visible" } },
    { parentNode := some 1,
      style := some { position := "relative", overflow := "scroll", overflowY := "scroll",
                      overflowX := "scroll" } },
    { parentNode := some 2,
      style := some { position := "static", overflow := "visible", overflowY := "visible",
                      overflowX := "visible" } },
    { parentNode := some 3,
      style := some { position := "absolute", overflow := "visible", overflowY := "visible",
                      overflowX := "visible" } } ]

/-- Props with one child, an overlay element with the id `tip`, no handler of their own
and the given trigger. -/
def sampleProps (trigger : Trigger) : RenderProps :=
  { trigger := trigger
    overlay := some (OverlayNode.element { id := some "tip" })
    children := [{ onClick := some 7, onMouseOver := none, onMouseOut := none,
                   onFocus := none, onBlur := none }]
    onBlur := none, onClick := none, onFocus := none, onMouseOut := none,
    onMouseOver := none }

/-! ## Invariant of the timeout table -/

theorem consistent_initial (d : Bool) (n : Nat) : Consistent (initial d n) := by
  simp [Consistent, initial]

theorem consistent_cases (w : World) (hw : Consistent w) :
    (w.comp._hoverShowDelay = none ∧ w.comp._hoverHideDelay = none ∧ w.timeouts = []) ∨
    (∃ h d, w.comp._hoverShowDelay = some h ∧ w.comp._hoverHideDelay = none ∧
      w.timeouts = [{ handle := h, callback := Callback.showLater, delay := d }]) ∨
    (∃ h d, w.comp._hoverShowDelay = none ∧ w.comp._hoverHideDelay = some h ∧
      w.timeouts = [{ handle := h, callback := Callback.hideLater, delay := d }]) := by
  obtain ⟨⟨s, sd, hd⟩, ts, n, cs⟩ := w
  unfold Consistent at hw
  split at hw
  · simp_all
  · rename_i h t e1 e2 e3
    obtain ⟨th, tc, td⟩ := t
    simp_all
  · rename_i h t e1 e2 e3
    obtain ⟨th, tc, td⟩ := t
    simp_all
  · exact hw.elim

theorem consistent_of_cases (w : World)
    (h : (w.comp._hoverShowDelay = none ∧ w.comp._hoverHideDelay = none ∧ w.timeouts = []) ∨
    (∃ h d, w.comp._hoverShowDelay = some h ∧ w.comp._hoverHideDelay = none ∧
      w.timeouts = [{ handle := h, callback := Callback.showLater, delay := d }]) ∨
    (∃ h d, w.comp._hoverShowDelay = none ∧ w.comp._hoverHideDelay = some h ∧
      w.timeouts = [{ handle := h, callback := Callback.hideLater, delay := d }])) :
    Consistent w := by
  obtain ⟨⟨s, sd, hd⟩, ts, n, cs⟩ := w
  rcases h with ⟨h1, h2, h3⟩ | ⟨h, d, h1, h2, h3⟩ | ⟨h, d, h1, h2, h3⟩ <;>
    simp only at h1 h2 h3 <;> subst h1 h2 h3 <;> simp [Consistent]

theorem elapse_nil (h : Nat) (w : World) (hw : w.timeouts = []) : elapse h w = w := by
  simp [elapse, hw]

theorem elapse_single_ne (h : Nat) (w : World) (t : Timeout) (hw : w.timeouts = [t])
    (hne : t.handle ≠ h) : elapse h w = w := by
  simp [elapse, hw, hne]

theorem elapse_single_eq (w : World) (t : Timeout) (hw : w.timeouts = [t]) :
    elapse t.handle w = runCallback t.callback { w with timeouts := [] } := by
  simp [elapse, hw]

theorem consistent_step (p : Props) (e : Event) (w : World) (hw : Consistent w) :
    Consistent (step p e w) := by
  cases e with
  | timerElapse k =>
    simp only [step]
    rcases consistent_cases _ hw with ⟨h1, h2, h3⟩ | ⟨h, d, h1, h2, h3⟩ | ⟨h, d, h1, h2, h3⟩
    · rw [elapse_nil k w h3]; exact hw
    · by_cases hk : h = k
      · subst hk
        have := elapse_single_eq w _ h3
        simp only at this
        rw [this]
        apply consistent_of_cases
        simp [runCallback, show_, h2]
      · rw [elapse_single_ne k w _ h3 hk]; exact hw
    · by_cases hk : h = k
      · subst hk
        have := elapse_single_eq w _ h3
        simp only at this
        rw [this]
        apply consistent_of_cases
        simp [runCallback, hide, h1]
      · rw [elapse_single_ne k w _ h3 hk]; exact hw
  | requestShow =>
    apply consistent_of_cases
    rcases consistent_cases _ hw with ⟨h1, h2, h3⟩ | ⟨h, d, h1, h2, h3⟩ | ⟨h, d, h1, h2, h3⟩ <;>
      simp only [step, handleDelayedShow, h1, h2, h3] <;>
      repeat (first | split | simp_all [show_, setTimeout, clearTimeout])
  | requestHide =>
    apply consistent_of_cases
    rcases consistent_cases _ hw with ⟨h1, h2, h3⟩ | ⟨h, d, h1, h2, h3⟩ | ⟨h, d, h1, h2, h3⟩ <;>
      simp only [step, handleDelayedHide, h1, h2, h3] <;>
      repeat (first | split | simp_all [hide, setTimeout, clearTimeout])
  | click =>
    apply consistent_of_cases
    rcases consistent_cases _ hw with ⟨h1, h2, h3⟩ | ⟨h, d, h1, h2, h3⟩ | ⟨h, d, h1, h2, h3⟩ <;>
      simp only [step, handleToggle] <;> split <;> simp_all [show_, hide]
  | explicitHide =>
    apply consistent_of_cases
    rcases consistent_cases _ hw with ⟨h1, h2, h3⟩ | ⟨h, d, h1, h2, h3⟩ | ⟨h, d, h1, h2, h3⟩ <;>
      simp_all [step, handleHide, hide]

theorem consistent_run (es : List (Props × Event)) (w : World) (hw : Consistent w) :
    Consistent (run es w) := by
  induction es generalizing w with
  | nil => simpa [run] using hw
  | cons pe es ih =>
    have h1 := consistent_step pe.1 pe.2 w hw
    simpa [run] using ih _ h1

/-! ## A cleared handle never comes back -/

theorem step_avoids_handle (p : Props) (e : Event) (w : World) (h : Nat)
    (h1 : ∀ t ∈ w.timeouts, t.handle ≠ h) (h2 : h < w.nextHandle) :
    (∀ t ∈ (step p e w).timeouts, t.handle ≠ h) ∧ h < (step p e w).nextHandle := by
  cases e with
  | requestShow =>
    simp only [step, handleDelayedShow]
    split
    · cases hh : w.comp._hoverHideDelay <;> simp_all [clearTimeout]
    · split
      · exact ⟨h1, h2⟩
      · split
        · exact ⟨h1, h2⟩
        · split
          · exact ⟨h1, h2⟩
          · refine ⟨?_, ?_⟩
            · intro t ht
              simp only [setTimeout, List.mem_append, List.mem_singleton] at ht
              rcases ht with ht | ht
              · exact h1 t ht
              · subst ht; simp only; omega
            · simp only [setTimeout]; omega
  | requestHide =>
    simp only [step, handleDelayedHide]
    split
    · cases hh : w.comp._hoverShowDelay <;> simp_all [clearTimeout]
    · split
      · exact ⟨h1, h2⟩
      · split
        · exact ⟨h1, h2⟩
        · split
          · exact ⟨h1, h2⟩
          · refine ⟨?_, ?_⟩
            · intro t ht
              simp only [setTimeout, List.mem_append, List.mem_singleton] at ht
              rcases ht with ht | ht
              · exact h1 t ht
              · subst ht; simp only; omega
            · simp only [setTimeout]; omega
  | click =>
    simp only [step, handleToggle]
    split <;> exact ⟨h1, h2⟩
  | explicitHide => exact ⟨h1, h2⟩
  | timerElapse k =>
    simp only [step, elapse]
    split
    · exact ⟨h1, h2⟩
    · rename_i t ht
      have hsub : ∀ t ∈ w.timeouts.filter (fun t => t.handle != k), t.handle ≠ h :=
        fun t ht => h1 t (List.mem_filter.mp ht).1
      cases t.callback <;> exact ⟨hsub, h2⟩

theorem run_avoids_handle (es : List (Props × Event)) (w : World) (h : Nat)
    (h1 : ∀ t ∈ w.timeouts, t.handle ≠ h) (h2 : h < w.nextHandle) :
    (∀ t ∈ (run es w).timeouts, t.handle ≠ h) ∧ h < (run es w).nextHandle := by
  induction es generalizing w with
  | nil => exact ⟨h1, h2⟩
  | cons pe es ih =>
    have hs := step_avoids_handle pe.1 pe.2 w h h1 h2
    simpa [run] using ih _ hs.1 hs.2

/-! ## Coupling of timers and visibility -/

theorem coupled_initial (d : Bool) (n : Nat) : Coupled (initial d n) := by
  simp [Coupled, initial]

theorem coupled_step (p : Props) (e : Event) (w : World) (he : e.isDelayed = true)
    (hc : Consistent w) (hw : Coupled w) : Coupled (step p e w) := by
  obtain ⟨hw1, hw2⟩ := hw
  cases e with
  | click => simp [Event.isDelayed] at he
  | explicitHide => simp [Event.isDelayed] at he
  | requestShow =>
    rcases consistent_cases _ hc with ⟨h1, h2, h3⟩ | ⟨h, d, h1, h2, h3⟩ | ⟨h, d, h1, h2, h3⟩ <;>
      simp only [step, handleDelayedShow, h1, h2, h3] <;>
      repeat (first | split | simp_all [Coupled, show_, setTimeout, clearTimeout])
  | requestHide =>
    rcases consistent_cases _ hc with ⟨h1, h2, h3⟩ | ⟨h, d, h1, h2, h3⟩ | ⟨h, d, h1, h2, h3⟩ <;>
      simp only [step, handleDelayedHide, h1, h2, h3] <;>
      repeat (first | split | simp_all [Coupled, hide, setTimeout, clearTimeout])
  | timerElapse k =>
    simp only [step]
    rcases consistent_cases _ hc with ⟨h1, h2, h3⟩ | ⟨h, d, h1, h2, h3⟩ | ⟨h, d, h1, h2, h3⟩
    · rw [elapse_nil k w h3]; exact ⟨hw1, hw2⟩
    · by_cases hk : h = k
      · subst hk
        have := elapse_single_eq w _ h3
        simp only at this
        rw [this]
        simp [Coupled, runCallback, show_, h2]
      · rw [elapse_single_ne k w _ h3 hk]; exact ⟨hw1, hw2⟩
    · by_cases hk : h = k
      · subst hk
        have := elapse_single_eq w _ h3
        simp only at this
        rw [this]
        simp [Coupled, runCallback, hide, h1]
      · rw [elapse_single_ne k w _ h3 hk]; exact ⟨hw1, hw2⟩

theorem coupled_run (es : List (Props × Event)) (w : World)
    (he : ∀ pe ∈ es, pe.2.isDelayed = true) (hc : Consistent w) (hw : Coupled w) :
    Coupled (run es w) := by
  induction es generalizing w with
  | nil => simpa [run] using hw
  | cons pe es ih =>
    have h1 := coupled_step pe.1 pe.2 w (he pe (List.mem_cons_self _ _)) hc hw
    have h2 := consistent_step pe.1 pe.2 w hc
    have h3 := ih _ (fun q hq => he q (List.mem_cons_of_mem _ hq)) h2 h1
    simpa [run] using h3

/-! ## The two timers exclude each other -/

/-- C1. From the initial state, after every finite sequence of events (request show,
request hide, click, explicit hide, timer elapse), handled under arbitrary props, the two
fields `_hoverShowDelay` and `_hoverHideDelay` are never both set, and the host holds at
most one pending timeout. -/
theorem timers_mutually_exclusive (defaultOverlayShown : Bool) (nextHandle : Nat)
    (es : List (Props × Event)) :
    ¬ ((run es (initial defaultOverlayShown nextHandle)).comp._hoverShowDelay ≠ none ∧
        (run es (initial defaultOverlayShown nextHandle)).comp._hoverHideDelay ≠ none) ∧
      (run es (initial defaultOverlayShown nextHandle)).timeouts.length ≤ 1 := by
  have hc := consistent_run es _ (consistent_initial defaultOverlayShown nextHandle)
  rcases consistent_cases _ hc with ⟨h1, h2, h3⟩ | ⟨h, d, h1, h2, h3⟩ | ⟨h, d, h1, h2, h3⟩ <;>
    simp [h1, h2, h3]

/-! ## Show over a pending hide -/

theorem elapse_absent (h : Nat) (w : World) (hw : ∀ t ∈ w.timeouts, t.handle ≠ h) :
    elapse h w = w := by
  have : w.timeouts.find? (fun t => t.handle == h) = none := by
    rw [List.find?_eq_none]
    intro t ht
    simpa using hw t ht
  simp [elapse, this]

theorem handleDelayedShow_clears_hide (p : Props) (w : World) (h : Nat)
    (hh : w.comp._hoverHideDelay = some h) :
    handleDelayedShow p w =
        { comp := { state_show := w.comp.state_show
                    _hoverShowDelay := w.comp._hoverShowDelay
                    _hoverHideDelay := none }
          timeouts := w.timeouts.filter (fun t => t.handle != h)
          nextHandle := w.nextHandle
          calls := w.calls } := by
  simp [handleDelayedShow, hh, clearTimeout]

/-- C4. In every state in which a hide timer is pending (`_hoverHideDelay` holds the
handle `h`), `handleDelayedShow` only clears that timeout and resets the field: the show
field, the visibility flag, the handle counter (no `setTimeout`) and the call trace (no
`show()`, no `hide()`) are as before.  The cleared timeout is no longer pending, so it
cannot elapse; and when `h` was issued by the host (`h < nextHandle`) it is never pending
again, whatever events follow. -/
theorem show_cancels_pending_hide (p : Props) (w : World) (h : Nat)
    (hh : w.comp._hoverHideDelay = some h) :
    handleDelayedShow p w =
        { comp := { state_show := w.comp.state_show
                    _hoverShowDelay := w.comp._hoverShowDelay
                    _hoverHideDelay := none }
          timeouts := w.timeouts.filter (fun t => t.handle != h)
          nextHandle := w.nextHandle
          calls := w.calls } ∧
      (∀ t ∈ (handleDelayedShow p w).timeouts, t.handle ≠ h) ∧
      elapse h (handleDelayedShow p w) = handleDelayedShow p w ∧
      (h < w.nextHandle → ∀ es : List (Props × Event),
        (∀ t ∈ (run es (handleDelayedShow p w)).timeouts, t.handle ≠ h) ∧
          elapse h (run es (handleDelayedShow p w)) = run es (handleDelayedShow p w)) := by
  have heq := handleDelayedShow_clears_hide p w h hh
  have hno : ∀ t ∈ (handleDelayedShow p w).timeouts, t.handle ≠ h := by
    rw [heq]
    intro t ht
    simpa using (List.mem_filter.mp ht).2
  refine ⟨heq, hno, elapse_absent h _ hno, ?_⟩
  intro hlt es
  have hn : h < (handleDelayedShow p w).nextHandle := by rw [heq]; exact hlt
  have hr := run_avoids_handle es _ h hno hn
  exact ⟨hr.1, elapse_absent h _ hr.1⟩

theorem show_cancels_pending_hide_witness :
    (handleDelayedHide ⟨some 100, none, none⟩ (initial true 1)).comp._hoverHideDelay = some 1 ∧
      1 < (handleDelayedHide ⟨some 100, none, none⟩ (initial true 1)).nextHandle ∧
      handleDelayedShow ⟨none, none, none⟩
          (handleDelayedHide ⟨some 100, none, none⟩ (initial true 1)) =
        { comp := { state_show := true, _hoverShowDelay := none, _hoverHideDelay := none }
          timeouts := []
          nextHandle := 2
          calls := [] } ∧
      elapse 1 (run [((⟨some 100, none, none⟩ : Props), Event.requestHide)]
          (handleDelayedShow ⟨none, none, none⟩
            (handleDelayedHide ⟨some 100, none, none⟩ (initial true 1)))) =
        run [((⟨some 100, none, none⟩ : Props), Event.requestHide)]
          (handleDelayedShow ⟨none, none, none⟩
            (handleDelayedHide ⟨some 100, none, none⟩ (initial true 1))) :=
  have h := show_cancels_pending_hide ⟨none, none, none⟩
    (handleDelayedHide ⟨some 100, none, none⟩ (initial true 1)) 1 (by decide)
  ⟨by decide, by decide, h.1.trans (by decide),
    (h.2.2.2 (by decide) [(⟨some 100, none, none⟩, Event.requestHide)]).2⟩

/-! ## Enter followed by leave -/

/-- C6. From the hidden state with no timer pending, under props whose resolved show
delay is positive, `handleDelayedShow` starts a show timer of that duration without
calling `show()`; `handleDelayedHide` (under any props) before the timer elapses clears
it: the instance is back in the starting state (hidden, both fields `null`), no timeout
is pending, so none can elapse later, and `show()` has not been called. -/
theorem enter_then_leave_restores (p1 p2 : Props) (w : World)
    (hd : 0 < resolvedShowDelay p1)
    (hw : w.comp = { state_show := false, _hoverShowDelay := none, _hoverHideDelay := none })
    (ht : w.timeouts = []) :
    handleDelayedShow p1 w =
        { comp := { state_show := false, _hoverShowDelay := some w.nextHandle,
                    _hoverHideDelay := none }
          timeouts := [{ handle := w.nextHandle, callback := Callback.showLater,
                         delay := resolvedShowDelay p1 }]
          nextHandle := w.nextHandle + 1
          calls := w.calls } ∧
      (handleDelayedHide p2 (handleDelayedShow p1 w)).comp = w.comp ∧
      (handleDelayedHide p2 (handleDelayedShow p1 w)).timeouts = [] ∧
      (handleDelayedHide p2 (handleDelayedShow p1 w)).calls = w.calls ∧
      settle (handleDelayedHide p2 (handleDelayedShow p1 w)) =
        handleDelayedHide p2 (handleDelayedShow p1 w) := by
  obtain ⟨c, ts, n, cs⟩ := w
  simp only at hw ht
  subst hw ht
  obtain ⟨dl, ds, dh⟩ := p1
  have h1 : handleDelayedShow ⟨dl, ds, dh⟩
      { comp := { state_show := false, _hoverShowDelay := none, _hoverHideDelay := none }
        timeouts := [], nextHandle := n, calls := cs } =
        { comp := { state_show := false, _hoverShowDelay := some n, _hoverHideDelay := none }
          timeouts := [{ handle := n, callback := Callback.showLater,
                         delay := resolvedShowDelay ⟨dl, ds, dh⟩ }]
          nextHandle := n + 1
          calls := cs } := by
    cases ds with
    | some x =>
      simp only [resolvedShowDelay, nullish, Option.getD] at hd
      have hx : x ≠ 0 := by omega
      simp [handleDelayedShow, setTimeout, resolvedShowDelay, nullish, hx]
    | none =>
      cases dl with
      | some x =>
        simp only [resolvedShowDelay, nullish, Option.getD] at hd
        have hx : x ≠ 0 := by omega
        simp [handleDelayedShow, setTimeout, resolvedShowDelay, nullish, hx]
      | none => simp [resolvedShowDelay, nullish] at hd
  rw [h1]
  simp [handleDelayedHide, clearTimeout, settle]

theorem enter_then_leave_restores_witness :
    0 < resolvedShowDelay ⟨none, some 100, none⟩ ∧
      (handleDelayedHide ⟨none, none, none⟩
        (handleDelayedShow ⟨none, some 100, none⟩ (initial false 1))).comp =
        (initial false 1).comp ∧
      (handleDelayedHide ⟨none, none, none⟩
        (handleDelayedShow ⟨none, some 100, none⟩ (initial false 1))).calls = [] :=
  have h := enter_then_leave_restores ⟨none, some 100, none⟩ ⟨none, none, none⟩
    (initial false 1) (by decide) rfl rfl
  ⟨by decide, h.2.1, h.2.2.2.1⟩

/-! ## Idempotence of the show request -/

/-- C7. In every state with no hide timer pending, under any props, a second
`handleDelayedShow` right after a first changes nothing; the two calls together call
`setTimeout` at most once; when the overlay is already shown or a show timer is already
pending the first call changes nothing either; and in a state whose timeout table matches
the fields, after the two calls and the elapse of whatever is pending, `show()` has been
called at most once more than before. -/
theorem requestShow_idempotent (p1 p2 : Props) (w : World)
    (hh : w.comp._hoverHideDelay = none) :
    handleDelayedShow p2 (handleDelayedShow p1 w) = handleDelayedShow p1 w ∧
      (handleDelayedShow p2 (handleDelayedShow p1 w)).nextHandle ≤ w.nextHandle + 1 ∧
      (handleDelayedShow p2 (handleDelayedShow p1 w)).timeouts.length ≤
        w.timeouts.length + 1 ∧
      ((w.comp.state_show = true ∨ w.comp._hoverShowDelay ≠ none) →
        handleDelayedShow p1 w = w) ∧
      (Consistent w →
        (settle (handleDelayedShow p2 (handleDelayedShow p1 w))).calls.count Call.showCall ≤
          w.calls.count Call.showCall + 1) := by
  obtain ⟨⟨s, sd, hd⟩, ts, n, cs⟩ := w
  simp only at hh
  subst hh
  have hidem : handleDelayedShow p2 (handleDelayedShow p1
      { comp := { state_show := s, _hoverShowDelay := sd, _hoverHideDelay := none }
        timeouts := ts, nextHandle := n, calls := cs }) =
      handleDelayedShow p1
        { comp := { state_show := s, _hoverShowDelay := sd, _hoverHideDelay := none }
          timeouts := ts, nextHandle := n, calls := cs } := by
    cases s <;> cases sd <;>
      (simp [handleDelayedShow]
       repeat (first | split | simp_all [handleDelayedShow, show_, setTimeout]))
  refine ⟨hidem, ?_, ?_, ?_, ?_⟩
  · rw [hidem]
    simp only [handleDelayedShow]
    repeat (first | split | simp_all [show_, setTimeout])
  · rw [hidem]
    simp only [handleDelayedShow]
    repeat (first | split | simp_all [show_, setTimeout])
  · intro h
    rcases h with h | h
    · simp only at h; subst h; simp [handleDelayedShow]
    · cases sd with
      | none => simp at h
      | some x => simp [handleDelayedShow]
  · intro hc
    rw [hidem]
    rcases consistent_cases _ hc with ⟨h1, h2, h3⟩ | ⟨h, d, h1, h2, h3⟩ | ⟨h, d, h1, h2, h3⟩
    · simp only at h1 h3
      subst h1 h3
      simp only [handleDelayedShow]
      repeat (first | split | simp_all [show_, setTimeout, settle, elapse, runCallback])
    · simp only at h1 h3
      subst h1 h3
      simp [handleDelayedShow, settle, elapse, runCallback, show_]
    · simp at h2

theorem requestShow_idempotent_witness :
    (initial false 1).comp._hoverHideDelay = none ∧
      handleDelayedShow ⟨some 5, none, none⟩
          (handleDelayedShow ⟨none, some 100, none⟩ (initial false 1)) =
        handleDelayedShow ⟨none, some 100, none⟩ (initial false 1) ∧
      (settle (handleDelayedShow ⟨some 5, none, none⟩
        (handleDelayedShow ⟨none, some 100, none⟩ (initial false 1)))).calls.count
          Call.showCall ≤ 0 + 1 :=
  have h := requestShow_idempotent ⟨none, some 100, none⟩ ⟨some 5, none, none⟩
    (initial false 1) rfl
  ⟨rfl, h.1, h.2.2.2.2 (by decide)⟩

/-! ## Resolution of the delays -/

theorem handleDelayedShow_idle (p : Props) (w : World)
    (hw : w.comp = { state_show := false, _hoverShowDelay := none, _hoverHideDelay := none }) :
    (resolvedShowDelay p = 0 → handleDelayedShow p w = show_ w) ∧
      (resolvedShowDelay p ≠ 0 →
        nullish p.delayShow p.delay = some (resolvedShowDelay p) ∧
        handleDelayedShow p w =
          { comp := { state_show := false, _hoverShowDelay := some w.nextHandle,
                      _hoverHideDelay := none }
            timeouts := w.timeouts ++ [{ handle := w.nextHandle, callback := Callback.showLater,
                                         delay := resolvedShowDelay p }]
            nextHandle := w.nextHandle + 1
            calls := w.calls }) := by
  obtain ⟨c, ts, n, cs⟩ := w
  simp only at hw
  subst hw
  obtain ⟨dl, ds, dh⟩ := p
  cases ds with
  | some x =>
    by_cases hx : x = 0 <;>
      simp [handleDelayedShow, setTimeout, resolvedShowDelay, nullish, hx]
  | none =>
    cases dl with
    | some x =>
      by_cases hx : x = 0 <;>
        simp [handleDelayedShow, setTimeout, resolvedShowDelay, nullish, hx]
    | none => simp [handleDelayedShow, resolvedShowDelay, nullish]

theorem handleDelayedHide_idle (p : Props) (v : World)
    (hv : v.comp = { state_show := true, _hoverShowDelay := none, _hoverHideDelay := none }) :
    (resolvedHideDelay p = 0 → handleDelayedHide p v = hide v) ∧
      (resolvedHideDelay p ≠ 0 →
        nullish p.delayHide p.delay = some (resolvedHideDelay p) ∧
        handleDelayedHide p v =
          { comp := { state_show := true, _hoverShowDelay := none,
                      _hoverHideDelay := some v.nextHandle }
            timeouts := v.timeouts ++ [{ handle := v.nextHandle, callback := Callback.hideLater,
                                         delay := resolvedHideDelay p }]
            nextHandle := v.nextHandle + 1
            calls := v.calls }) := by
  obtain ⟨c, ts, n, cs⟩ := v
  simp only at hv
  subst hv
  obtain ⟨dl, ds, dh⟩ := p
  cases dh with
  | some x =>
    by_cases hx : x = 0 <;>
      simp [handleDelayedHide, setTimeout, resolvedHideDelay, nullish, hx]
  | none =>
    cases dl with
    | some x =>
      by_cases hx : x = 0 <;>
        simp [handleDelayedHide, setTimeout, resolvedHideDelay, nullish, hx]
    | none => simp [handleDelayedHide, resolvedHideDelay, nullish]

/-- C8. From the hidden state `w` with no timer pending, `handleDelayedShow` calls
`show()` at once and starts no timer exactly when `delayShow ?? delay ?? 0` is zero, and
otherwise calls nothing and starts one show timer whose duration is `delayShow ?? delay`.
From the shown state `v` with no timer pending, `handleDelayedHide` does the same with
`hide()` and `delayHide ?? delay ?? 0`.  An explicit `delayShow = 0` (or `delayHide = 0`)
acts at once whatever `delay` is. -/
theorem delay_resolution (p : Props) (w v : World)
    (hw : w.comp = { state_show := false, _hoverShowDelay := none, _hoverHideDelay := none })
    (hv : v.comp = { state_show := true, _hoverShowDelay := none, _hoverHideDelay := none }) :
    (handleDelayedShow p w = show_ w ↔ resolvedShowDelay p = 0) ∧
      (resolvedShowDelay p ≠ 0 →
        nullish p.delayShow p.delay = some (resolvedShowDelay p) ∧
        handleDelayedShow p w =
          { comp := { state_show := false, _hoverShowDelay := some w.nextHandle,
                      _hoverHideDelay := none }
            timeouts := w.timeouts ++ [{ handle := w.nextHandle, callback := Callback.showLater,
                                         delay := resolvedShowDelay p }]
            nextHandle := w.nextHandle + 1
            calls := w.calls }) ∧
      (handleDelayedHide p v = hide v ↔ resolvedHideDelay p = 0) ∧
      (resolvedHideDelay p ≠ 0 →
        nullish p.delayHide p.delay = some (resolvedHideDelay p) ∧
        handleDelayedHide p v =
          { comp := { state_show := true, _hoverShowDelay := none,
                      _hoverHideDelay := some v.nextHandle }
            timeouts := v.timeouts ++ [{ handle := v.nextHandle, callback := Callback.hideLater,
                                         delay := resolvedHideDelay p }]
            nextHandle := v.nextHandle + 1
            calls := v.calls }) ∧
      (p.delayShow = some 0 → handleDelayedShow p w = show_ w) ∧
      (p.delayHide = some 0 → handleDelayedHide p v = hide v) := by
  have hs := handleDelayedShow_idle p w hw
  have hh := handleDelayedHide_idle p v hv
  refine ⟨⟨?_, hs.1⟩, hs.2, ⟨?_, hh.1⟩, hh.2, ?_, ?_⟩
  · intro heq
    by_contra hne
    have h2 := (hs.2 hne).2
    rw [heq] at h2
    have h3 := congrArg World.nextHandle h2
    simp [show_] at h3
  · intro heq
    by_contra hne
    have h2 := (hh.2 hne).2
    rw [heq] at h2
    have h3 := congrArg World.nextHandle h2
    simp [hide] at h3
  · intro h0
    exact hs.1 (by simp [resolvedShowDelay, nullish, h0])
  · intro h0
    exact hh.1 (by simp [resolvedHideDelay, nullish, h0])

theorem delay_resolution_witness :
    (initial false 1).comp =
        { state_show := false, _hoverShowDelay := none, _hoverHideDelay := none } ∧
      (initial true 1).comp =
        { state_show := true, _hoverShowDelay := none, _hoverHideDelay := none } ∧
      handleDelayedShow ⟨some 300, some 0, none⟩ (initial false 1) = show_ (initial false 1) ∧
      handleDelayedHide ⟨some 300, some 0, none⟩ (initial true 1) =
        { comp := { state_show := true, _hoverShowDelay := none, _hoverHideDelay := some 1 }
          timeouts := [{ handle := 1, callback := Callback.hideLater, delay := 300 }]
          nextHandle := 2
          calls := [] } :=
  have h := delay_resolution ⟨some 300, some 0, none⟩ (initial false 1) (initial true 1) rfl rfl
  ⟨rfl, rfl, h.2.2.2.2.1 rfl, ((h.2.2.2.1 (by decide)).2).trans (by decide)⟩

/-! ## Click toggle -/

/-- C9. In every state and under any props, a click (`handleToggle`) negates the
visibility flag within the same step, leaves both timeout fields, the host's timeouts and
the handle counter as they are (no timer is started or cleared), whatever the delay
props; two clicks from a hidden state give shown and then hidden, and two clicks restore
the visibility of any state. -/
theorem toggle_negates_visibility (p : Props) (w : World) :
    step p Event.click w = handleToggle w ∧
      (handleToggle w).comp =
        { state_show := !w.comp.state_show
          _hoverShowDelay := w.comp._hoverShowDelay
          _hoverHideDelay := w.comp._hoverHideDelay } ∧
      (handleToggle w).timeouts = w.timeouts ∧
      (handleToggle w).nextHandle = w.nextHandle ∧
      (handleToggle w).calls =
        w.calls ++ [if w.comp.state_show then Call.hideCall else Call.showCall] ∧
      (handleToggle (handleToggle w)).comp = w.comp ∧
      (handleToggle { w with comp := { w.comp with state_show := false } }).comp.state_show
        = true ∧
      (handleToggle (handleToggle
        { w with comp := { w.comp with state_show := false } })).comp.state_show = false := by
  obtain ⟨⟨s, sd, hd⟩, ts, n, cs⟩ := w
  cases s <;> simp [step, handleToggle, show_, hide]

/-! ## Scroll dismissal -/

theorem scroll_on_consistent (p : Props) (w : World) (hc : Consistent w)
    (hs : w.comp.state_show = true) :
    (w.comp._hoverShowDelay = none →
        (((handleDelayedHide p w).comp.state_show = false ∧
            (handleDelayedHide p w).timeouts = []) ∨
          ∃ h, (handleDelayedHide p w).comp._hoverHideDelay = some h ∧
            (∃ t ∈ (handleDelayedHide p w).timeouts, t.handle = h) ∧
            (elapse h (handleDelayedHide p w)).comp.state_show = false) ∧
        (settle (handleDelayedHide p w)).comp.state_show = false ∧
        (settle (handleDelayedHide p w)).timeouts = [] ∧
        (w.comp._hoverHideDelay = none →
          ((handleDelayedHide p w).comp.state_show = false ↔ resolvedHideDelay p = 0))) ∧
      (w.comp._hoverShowDelay ≠ none →
        (handleDelayedHide p w).comp.state_show = true ∧
        (handleDelayedHide p w).comp._hoverShowDelay = none ∧
        (handleDelayedHide p w).comp._hoverHideDelay = none ∧
        (handleDelayedHide p w).timeouts = [] ∧
        (handleDelayedHide p w).calls = w.calls ∧
        (settle (handleDelayedHide p w)).comp.state_show = true) := by
  obtain ⟨⟨s, sd, hd⟩, ts, n, cs⟩ := w
  simp only at hs
  subst hs
  rcases consistent_cases _ hc with ⟨h1, h2, h3⟩ | ⟨h, d, h1, h2, h3⟩ | ⟨h, d, h1, h2, h3⟩
  · simp only at h1 h2 h3
    subst h1 h2 h3
    have hi := handleDelayedHide_idle p
      { comp := { state_show := true, _hoverShowDelay := none, _hoverHideDelay := none }
        timeouts := [], nextHandle := n, calls := cs } rfl
    by_cases h0 : resolvedHideDelay p = 0
    · rw [hi.1 h0]
      simp [hide, settle, h0]
    · rw [(hi.2 h0).2]
      simp [settle, elapse, runCallback, hide, h0]
  · simp only at h1 h2 h3
    subst h1 h2 h3
    simp [handleDelayedHide, clearTimeout, settle]
  · simp only at h1 h2 h3
    subst h1 h2 h3
    simp [handleDelayedHide, settle, elapse, runCallback, hide]

/-- C3, as the code has it.  In a reachable state whose visibility is shown, a scroll
event (`handleDelayedHide`) hides the overlay provided no show timer is pending: at once
when no hide timer is pending and the resolved hide delay is zero, and otherwise it leaves
a hide timer pending whose elapse hides it; once every pending timeout has elapsed the
overlay is hidden and nothing is pending.  When a show timer is pending, the scroll only
clears that timer: the overlay stays shown, no timer is pending and `hide()` is not
called. -/
theorem scroll_dismissal (defaultOverlayShown : Bool) (nextHandle : Nat)
    (es : List (Props × Event)) (p : Props) (w : World)
    (hr : w = run es (initial defaultOverlayShown nextHandle))
    (hs : w.comp.state_show = true) :
    (w.comp._hoverShowDelay = none →
        (((handleDelayedHide p w).comp.state_show = false ∧
            (handleDelayedHide p w).timeouts = []) ∨
          ∃ h, (handleDelayedHide p w).comp._hoverHideDelay = some h ∧
            (∃ t ∈ (handleDelayedHide p w).timeouts, t.handle = h) ∧
            (elapse h (handleDelayedHide p w)).comp.state_show = false) ∧
        (settle (handleDelayedHide p w)).comp.state_show = false ∧
        (settle (handleDelayedHide p w)).timeouts = [] ∧
        (w.comp._hoverHideDelay = none →
          ((handleDelayedHide p w).comp.state_show = false ↔ resolvedHideDelay p = 0))) ∧
      (w.comp._hoverShowDelay ≠ none →
        (handleDelayedHide p w).comp.state_show = true ∧
        (handleDelayedHide p w).comp._hoverShowDelay = none ∧
        (handleDelayedHide p w).comp._hoverHideDelay = none ∧
        (handleDelayedHide p w).timeouts = [] ∧
        (handleDelayedHide p w).calls = w.calls ∧
        (settle (handleDelayedHide p w)).comp.state_show = true) := by
  have hc : Consistent w := by
    rw [hr]
    exact consistent_run es _ (consistent_initial defaultOverlayShown nextHandle)
  exact scroll_on_consistent p w hc hs

theorem scroll_dismissal_witness :
    (run [((⟨none, none, none⟩ : Props), Event.requestShow)] (initial false 1)).comp.state_show
        = true ∧
      (settle (handleDelayedHide ⟨none, none, some 50⟩
        (run [((⟨none, none, none⟩ : Props), Event.requestShow)]
          (initial false 1)))).comp.state_show = false :=
  have h := scroll_dismissal false 1 [(⟨none, none, none⟩, Event.requestShow)]
    ⟨none, none, some 50⟩ _ rfl (by decide)
  ⟨by decide, (h.1 (by decide)).2.1⟩

/-- C3 fails as stated.  After a focus under `delayShow = 100` (show timer pending) and a
click (shown), the state is reachable and shown; the scroll event clears the show timer
and returns: the overlay is still shown, nothing is pending, and it stays shown after
every pending timer has elapsed. -/
theorem scroll_dismissal_counterexample :
    (run [((⟨none, some 100, none⟩ : Props), Event.requestShow),
          ((⟨none, some 100, none⟩ : Props), Event.click)] (initial false 1)).comp.state_show
        = true ∧
      (handleDelayedHide ⟨none, some 100, none⟩
        (run [((⟨none, some 100, none⟩ : Props), Event.requestShow),
              ((⟨none, some 100, none⟩ : Props), Event.click)]
          (initial false 1))).comp.state_show = true ∧
      (handleDelayedHide ⟨none, some 100, none⟩
        (run [((⟨none, some 100, none⟩ : Props), Event.requestShow),
              ((⟨none, some 100, none⟩ : Props), Event.click)]
          (initial false 1))).timeouts = [] ∧
      (settle (handleDelayedHide ⟨none, some 100, none⟩
        (run [((⟨none, some 100, none⟩ : Props), Event.requestShow),
              ((⟨none, some 100, none⟩ : Props), Event.click)]
          (initial false 1)))).comp.state_show = true := by
  decide

/-! ## Visibility after a show over a pending hide -/

/-- C5, as the code has it.  In a reachable state in which a hide timer is pending,
`handleDelayedShow` leaves the visibility flag as it was; the overlay is shown afterwards
whenever the state was reached through show requests, hide requests and timer elapses
only (no click and no explicit hide). -/
theorem show_over_pending_hide_visibility (defaultOverlayShown : Bool) (nextHandle : Nat)
    (es : List (Props × Event)) (p : Props)
    (hp : (run es (initial defaultOverlayShown nextHandle)).comp._hoverHideDelay ≠ none) :
    (handleDelayedShow p (run es (initial defaultOverlayShown nextHandle))).comp.state_show =
        (run es (initial defaultOverlayShown nextHandle)).comp.state_show ∧
      ((∀ pe ∈ es, pe.2.isDelayed = true) →
        (handleDelayedShow p
          (run es (initial defaultOverlayShown nextHandle))).comp.state_show = true) := by
  have hkeep : (handleDelayedShow p
      (run es (initial defaultOverlayShown nextHandle))).comp.state_show =
        (run es (initial defaultOverlayShown nextHandle)).comp.state_show := by
    cases hh : (run es (initial defaultOverlayShown nextHandle)).comp._hoverHideDelay with
    | none => exact absurd hh hp
    | some h => rw [(handleDelayedShow_clears_hide p _ h hh)]
  refine ⟨hkeep, ?_⟩
  intro hd
  rw [hkeep]
  exact (coupled_run es _ hd (consistent_initial _ _) (coupled_initial _ _)).2 hp

theorem show_over_pending_hide_visibility_witness :
    (run [((⟨none, none, none⟩ : Props), Event.requestShow),
          ((⟨none, none, some 100⟩ : Props), Event.requestHide)]
        (initial false 1)).comp._hoverHideDelay ≠ none ∧
      (handleDelayedShow ⟨none, none, none⟩
        (run [((⟨none, none, none⟩ : Props), Event.requestShow),
              ((⟨none, none, some 100⟩ : Props), Event.requestHide)]
          (initial false 1))).comp.state_show = true :=
  have h := show_over_pending_hide_visibility false 1
    [(⟨none, none, none⟩, Event.requestShow), (⟨none, none, some 100⟩, Event.requestHide)]
    ⟨none, none, none⟩ (by decide)
  ⟨by decide, h.2 (by decide)⟩

/-- C5 fails as stated.  After a click (shown), a blur under `delayHide = 100` (hide timer
pending) and an explicit hide from the Overlay (hidden, the hide timer still pending), the
state is reachable with a hide timer pending; the show request clears the timer and
returns, and the overlay is hidden. -/
theorem show_over_pending_hide_counterexample :
    (run [((⟨none, none, some 100⟩ : Props), Event.click),
          ((⟨none, none, some 100⟩ : Props), Event.requestHide),
          ((⟨none, none, some 100⟩ : Props), Event.explicitHide)]
        (initial false 1)).comp._hoverHideDelay = some 1 ∧
      (handleDelayedShow ⟨none, none, some 100⟩
        (run [((⟨none, none, some 100⟩ : Props), Event.click),
              ((⟨none, none, some 100⟩ : Props), Event.requestHide),
              ((⟨none, none, some 100⟩ : Props), Event.explicitHide)]
          (initial false 1))).comp.state_show = false := by
  decide

/-! ## The mouse over/out classifier -/

theorem parent_lt (dom : Dom) (hwf : WellFormed dom) (x p : Nat)
    (hp : parentNode dom (some x) = some p) : p < x := by
  have hx : x < dom.length := by
    by_contra hge
    have : dom[x]? = none := List.getElem?_eq_none (by omega)
    simp [parentNode, this] at hp
  have h := hwf x hx
  simpa [parentBefore, hp] using h

theorem containsWalk_self (dom : Dom) (r fuel : Nat) (hf : 0 < fuel) :
    containsWalk dom r fuel r = true := by
  cases fuel with
  | zero => omega
  | succ k => simp [containsWalk]

theorem containsWalk_sound (dom : Dom) (r : Nat) :
    ∀ fuel x, containsWalk dom r fuel x = true → x = r ∨ Descendant dom r x := by
  intro fuel
  induction fuel with
  | zero => intro x h; simp [containsWalk] at h
  | succ k ih =>
    intro x h
    simp only [containsWalk, Bool.or_eq_true, beq_iff_eq] at h
    rcases h with h | h
    · exact Or.inl h
    · right
      cases hp : parentNode dom (some x) with
      | none => simp [hp] at h
      | some q =>
        simp only [hp] at h
        rcases ih q h with hq | hq
        · subst hq; exact Descendant.child x hp
        · exact Descendant.deeper x q hp hq

theorem containsWalk_complete (dom : Dom) (hwf : WellFormed dom) (r x : Nat)
    (hd : Descendant dom r x) : ∀ fuel, x < fuel → containsWalk dom r fuel x = true := by
  induction hd with
  | child x hp =>
    intro fuel hf
    have hlt := parent_lt dom hwf x r hp
    cases fuel with
    | zero => omega
    | succ k =>
      simp only [containsWalk, hp, Bool.or_eq_true, beq_iff_eq]
      exact Or.inr (containsWalk_self dom r k (by omega))
  | deeper x y hp _ ih =>
    intro fuel hf
    have hlt := parent_lt dom hwf x y hp
    cases fuel with
    | zero => omega
    | succ k =>
      simp only [containsWalk, hp, Bool.or_eq_true, beq_iff_eq]
      exact Or.inr (ih k (by omega))

theorem contains_iff (dom : Dom) (hwf : WellFormed dom) (r x : Nat) :
    contains dom r x = true ↔ x = r ∨ Descendant dom r x := by
  constructor
  · exact containsWalk_sound dom r (x + 1) x
  · intro h
    rcases h with h | h
    · subst h; exact containsWalk_self dom x (x + 1) (by omega)
    · exact containsWalk_complete dom hwf r x h (x + 1) (by omega)

/-- C2. For every event `e` on a well-formed document, with `R = e.currentTarget` and
`toNode` the related target if present, else `e.nativeEvent.toElement`:
`handleMouseOverOut(handler, e)` calls the handler exactly once (its result is the
handler's result on the incoming state) when `toNode` is absent or is neither `R` nor a
descendant of `R`, and does not call it (the state is unchanged) when `toNode` is `R` or a
descendant of `R`. -/
theorem classifier_invokes_handler {σ : Type} (dom : Dom) (hwf : WellFormed dom)
    (handler : MouseEvent → σ → σ) (e : MouseEvent) (s : σ) :
    ((toNode e = none ∨
        ∃ r, toNode e = some r ∧ r ≠ e.currentTarget ∧ ¬ Descendant dom e.currentTarget r) →
        handleMouseOverOut dom handler e s = handler e s ∧ invocations dom e = 1) ∧
      ((∃ r, toNode e = some r ∧ (r = e.currentTarget ∨ Descendant dom e.currentTarget r)) →
        handleMouseOverOut dom handler e s = s ∧ invocations dom e = 0) := by
  have hto : toNode e = (match e.relatedTarget with
      | some r => some r
      | none => e.nativeEvent_toElement) := rfl
  constructor
  · intro h
    rcases h with h | ⟨r, hr, hne, hnd⟩
    · rw [hto] at h
      simp [handleMouseOverOut, invocations, h]
    · rw [hto] at hr
      have hc : contains dom e.currentTarget r = false := by
        cases hcv : contains dom e.currentTarget r with
        | false => rfl
        | true =>
          rcases (contains_iff dom hwf _ _).mp hcv with h1 | h1
          · exact absurd h1 hne
          · exact absurd h1 hnd
      simp [handleMouseOverOut, invocations, hr, hc, hne]
  · rintro ⟨r, hr, hin⟩
    rw [hto] at hr
    have hc : r = e.currentTarget ∨ contains dom e.currentTarget r = true := by
      rcases hin with h1 | h1
      · exact Or.inl h1
      · exact Or.inr ((contains_iff dom hwf _ _).mpr (Or.inr h1))
    rcases hc with hc | hc <;> simp [handleMouseOverOut, invocations, hr, hc]

theorem nestedDom_wellFormed : WellFormed nestedDom := by
  decide

theorem classifier_invokes_handler_witness :
    WellFormed nestedDom ∧
      (toNode ⟨2, none, some 4⟩ = some 4 ∧ Descendant nestedDom 2 4) ∧
      handleMouseOverOut nestedDom (fun _ (k : Nat) => k + 7) ⟨2, none, some 4⟩ 0 = 0 ∧
      handleMouseOverOut nestedDom (fun _ (k : Nat) => k + 7) ⟨2, some 1, some 4⟩ 0 = 7 :=
  have hd : Descendant nestedDom 2 4 :=
    Descendant.deeper 4 3 (by decide) (Descendant.child 3 (by decide))
  have hn : ¬ Descendant nestedDom 2 1 := fun h =>
    absurd ((contains_iff nestedDom nestedDom_wellFormed 2 1).mpr (Or.inr h)) (by decide)
  ⟨nestedDom_wellFormed, ⟨rfl, hd⟩,
    ((classifier_invokes_handler nestedDom nestedDom_wellFormed (fun _ (k : Nat) => k + 7)
      ⟨2, none, some 4⟩ 0).2 ⟨4, rfl, Or.inr hd⟩).1,
    ((classifier_invokes_handler nestedDom nestedDom_wellFormed (fun _ (k : Nat) => k + 7)
      ⟨2, some 1, some 4⟩ 0).1 (Or.inr ⟨1, rfl, by decide, hn⟩)).1⟩

/-! ## The scroll parent -/

/-- C10 fails on the code.  In `nestedDom` the trigger (node 4, static) has the plain
wrapper (node 3) as parent and the scrollable container (node 2) as grandparent.
`getScrollParent` tests the parent only and returns the document, whatever the recursion
budget; the nearest ancestor that allows scrolling, as the specification words the scroll
anchor, is the container, a proper ancestor of the trigger. -/
theorem getScrollParent_misses_scrollable_grandparent (fuel : Nat) :
    getScrollParent (fuel + 1) nestedDom (some 4) = Except.ok document ∧
      nearestScrollableAncestor nestedDom 4 = 2 ∧
      parentNode nestedDom (parentNode nestedDom (some 4)) = some 2 ∧
      css nestedDom (some 2) "overflow" = Except.ok "auto" ∧
      css nestedDom (some 4) "position" = Except.ok "static" := by
  refine ⟨rfl, by decide, by decide, by decide, by decide⟩

/-! ## Teardown -/

theorem clearTimeout_both_consistent (w : World) (hc : Consistent w) :
    clearTimeout (clearTimeout w.comp._hoverShowDelay w).comp._hoverHideDelay
        (clearTimeout w.comp._hoverShowDelay w) =
      { comp := w.comp, timeouts := [], nextHandle := w.nextHandle, calls := w.calls } := by
  obtain ⟨⟨s, sd, hd⟩, ts, n, cs⟩ := w
  rcases consistent_cases _ hc with ⟨h1, h2, h3⟩ | ⟨h, d, h1, h2, h3⟩ | ⟨h, d, h1, h2, h3⟩ <;>
    simp only at h1 h2 h3 <;> subst h1 h2 h3 <;> simp [clearTimeout]

/-- C11. Let the instance be mounted on a trigger whose scroll parent resolves to
`anchor`: `componentDidMount` registers `handleDelayedHide` as the one scroll listener, on
`anchor`.  After any sequence of events (so possibly with a show or a hide timer pending),
`componentWillUnmount` succeeds and leaves no timeout pending, so that no timeout can
elapse and call `show()` or `hide()` afterwards, the call trace and the fields being as
they were at teardown; it removes that same listener from that same node, no scroll
listener is left, and a later scroll on any node reaches no handler. -/
theorem teardown_cancels_timers_and_listener (defaultOverlayShown : Bool) (nextHandle : Nat)
    (fuel : Nat) (dom : Dom) (trigger anchor : Nat) (es : List (Props × Event))
    (hm : getScrollParent fuel dom (some trigger) = Except.ok anchor) :
    componentDidMount fuel dom trigger (constructed defaultOverlayShown nextHandle) =
        Except.ok
          { world := initial defaultOverlayShown nextHandle
            scrollableNode := some anchor
            scrollListeners := [(anchor, Handler.handleDelayedHide)] } ∧
      componentWillUnmount (mountedRun es
          { world := initial defaultOverlayShown nextHandle
            scrollableNode := some anchor
            scrollListeners := [(anchor, Handler.handleDelayedHide)] }) =
        Except.ok
          { world :=
              { comp := (run es (initial defaultOverlayShown nextHandle)).comp
                timeouts := []
                nextHandle := (run es (initial defaultOverlayShown nextHandle)).nextHandle
                calls := (run es (initial defaultOverlayShown nextHandle)).calls }
            scrollableNode := some anchor
            scrollListeners := [] } ∧
      (∀ (u : Mounted), componentWillUnmount (mountedRun es
          { world := initial defaultOverlayShown nextHandle
            scrollableNode := some anchor
            scrollListeners := [(anchor, Handler.handleDelayedHide)] }) = Except.ok u →
        (∀ h, elapse h u.world = u.world) ∧ settle u.world = u.world ∧
          ∀ p node, dispatchScroll p node u = u) := by
  have hc := consistent_run es _ (consistent_initial defaultOverlayShown nextHandle)
  have hu : componentWillUnmount (mountedRun es
          { world := initial defaultOverlayShown nextHandle
            scrollableNode := some anchor
            scrollListeners := [(anchor, Handler.handleDelayedHide)] }) =
        Except.ok
          { world :=
              { comp := (run es (initial defaultOverlayShown nextHandle)).comp
                timeouts := []
                nextHandle := (run es (initial defaultOverlayShown nextHandle)).nextHandle
                calls := (run es (initial defaultOverlayShown nextHandle)).calls }
            scrollableNode := some anchor
            scrollListeners := [] } := by
    simp only [componentWillUnmount, mountedRun, clearTimeout_both_consistent _ hc]
    simp [removeEventListener]
  refine ⟨?_, hu, ?_⟩
  · simp [componentDidMount, hm, constructed, addEventListener, bind, Except.bind, pure,
      Except.pure]
  · intro u hu2
    rw [hu] at hu2
    cases hu2
    refine ⟨fun h => elapse_nil h _ rfl, by simp [settle], ?_⟩
    intro p node
    simp [dispatchScroll]

theorem teardown_cancels_timers_and_listener_witness :
    getScrollParent 2 nestedDom (some 4) = Except.ok 0 ∧
      (run [((⟨none, some 100, none⟩ : Props), Event.requestShow)]
        (initial false 1)).comp._hoverShowDelay = some 1 ∧
      componentWillUnmount (mountedRun [((⟨none, some 100, none⟩ : Props), Event.requestShow)]
          { world := initial false 1
            scrollableNode := some 0
            scrollListeners := [(0, Handler.handleDelayedHide)] }) =
        Except.ok
          { world :=
              { comp := { state_show := false, _hoverShowDelay := some 1,
                          _hoverHideDelay := none }
                timeouts := []
                nextHandle := 2
                calls := [] }
            scrollableNode := some 0
            scrollListeners := [] } :=
  ⟨by decide, by decide,
    (teardown_cancels_timers_and_listener false 1 2 nestedDom 4 0
      [(⟨none, some 100, none⟩, Event.requestShow)] (by decide)).2.1.trans (by decide)⟩

/-! ## Explicit hide -/

/-- C14. In every state and under any delay props, the Overlay's `onHide` is
`handleHide`, and `handleHide` sets the visibility to hidden within the same step by one
call of `hide()`; the props are not consulted, and the two timeout fields, the host's
timeouts and the handle counter are as before: no timer is started and none is cleared. -/
theorem explicit_hide_is_immediate (p : Props) (w : World) (overlay : Option OverlayNode) :
    (makeOverlay w.comp.state_show overlay).onHide = Handler.handleHide ∧
      step p Event.explicitHide w = handleHide w ∧
      (handleHide w).comp =
        { state_show := false
          _hoverShowDelay := w.comp._hoverShowDelay
          _hoverHideDelay := w.comp._hoverHideDelay } ∧
      (handleHide w).timeouts = w.timeouts ∧
      (handleHide w).nextHandle = w.nextHandle ∧
      (handleHide w).calls = w.calls ++ [Call.hideCall] := by
  simp [makeOverlay, step, handleHide, hide]

/-! ## Timers and visibility go together -/

theorem isDelayed_of_kind (e : Event)
    (h : e = Event.requestShow ∨ e = Event.requestHide ∨ ∃ k, e = Event.timerElapse k) :
    e.isDelayed = true := by
  rcases h with h | h | ⟨k, h⟩ <;> subst h <;> rfl

/-- C17. From an initial state (no timer pending), after every finite sequence of show
requests, hide requests (scrolls included) and timer elapses, with no click and no
explicit hide, a pending show timer implies that the overlay is hidden and a pending hide
timer implies that it is shown. -/
theorem timer_visibility_coupling (defaultOverlayShown : Bool) (nextHandle : Nat)
    (es : List (Props × Event))
    (he : ∀ pe ∈ es, pe.2 = Event.requestShow ∨ pe.2 = Event.requestHide ∨
      ∃ k, pe.2 = Event.timerElapse k) :
    ((run es (initial defaultOverlayShown nextHandle)).comp._hoverShowDelay ≠ none →
        (run es (initial defaultOverlayShown nextHandle)).comp.state_show = false) ∧
      ((run es (initial defaultOverlayShown nextHandle)).comp._hoverHideDelay ≠ none →
        (run es (initial defaultOverlayShown nextHandle)).comp.state_show = true) :=
  coupled_run es _ (fun pe hpe => isDelayed_of_kind pe.2 (he pe hpe))
    (consistent_initial _ _) (coupled_initial _ _)

theorem timer_visibility_coupling_witness :
    (run [((⟨none, some 100, none⟩ : Props), Event.requestShow)]
        (initial false 1)).comp._hoverShowDelay ≠ none ∧
      (run [((⟨none, some 100, none⟩ : Props), Event.requestShow)]
        (initial false 1)).comp.state_show = false :=
  ⟨by decide,
    (timer_visibility_coupling false 1 [(⟨none, some 100, none⟩, Event.requestShow)]
      (by simp)).1 (by decide)⟩

/-! ## The last request wins -/

theorem settle_after_show (p : Props) (w : World) (hc : Consistent w) (hw : Coupled w) :
    (settle (handleDelayedShow p w)).comp =
        { state_show := true, _hoverShowDelay := none, _hoverHideDelay := none } ∧
      (settle (handleDelayedShow p w)).timeouts = [] := by
  obtain ⟨hw1, hw2⟩ := hw
  obtain ⟨⟨s, sd, hd⟩, ts, n, cs⟩ := w
  rcases consistent_cases _ hc with ⟨h1, h2, h3⟩ | ⟨h, d, h1, h2, h3⟩ | ⟨h, d, h1, h2, h3⟩
  · simp only at h1 h2 h3
    subst h1 h2 h3
    cases s with
    | true => simp [handleDelayedShow, settle]
    | false =>
      have hi := handleDelayedShow_idle p
        { comp := { state_show := false, _hoverShowDelay := none, _hoverHideDelay := none }
          timeouts := [], nextHandle := n, calls := cs } rfl
      by_cases h0 : resolvedShowDelay p = 0
      · rw [hi.1 h0]; simp [show_, settle]
      · rw [(hi.2 h0).2]; simp [settle, elapse, runCallback, show_]
  · simp only at h1 h2 h3
    subst h1 h2 h3
    have hs : s = false := by simpa using hw1
    subst hs
    simp [handleDelayedShow, settle, elapse, runCallback, show_]
  · simp only at h1 h2 h3
    subst h1 h2 h3
    have hs : s = true := by simpa using hw2
    subst hs
    simp [handleDelayedShow, clearTimeout, settle]

theorem settle_after_hide (p : Props) (w : World) (hc : Consistent w) (hw : Coupled w) :
    (settle (handleDelayedHide p w)).comp =
        { state_show := false, _hoverShowDelay := none, _hoverHideDelay := none } ∧
      (settle (handleDelayedHide p w)).timeouts = [] := by
  obtain ⟨hw1, hw2⟩ := hw
  obtain ⟨⟨s, sd, hd⟩, ts, n, cs⟩ := w
  rcases consistent_cases _ hc with ⟨h1, h2, h3⟩ | ⟨h, d, h1, h2, h3⟩ | ⟨h, d, h1, h2, h3⟩
  · simp only at h1 h2 h3
    subst h1 h2 h3
    cases s with
    | false => simp [handleDelayedHide, settle]
    | true =>
      have hi := handleDelayedHide_idle p
        { comp := { state_show := true, _hoverShowDelay := none, _hoverHideDelay := none }
          timeouts := [], nextHandle := n, calls := cs } rfl
      by_cases h0 : resolvedHideDelay p = 0
      · rw [hi.1 h0]; simp [hide, settle]
      · rw [(hi.2 h0).2]; simp [settle, elapse, runCallback, hide]
  · simp only at h1 h2 h3
    subst h1 h2 h3
    have hs : s = false := by simpa using hw1
    subst hs
    simp [handleDelayedHide, clearTimeout, settle]
  · simp only at h1 h2 h3
    subst h1 h2 h3
    have hs : s = true := by simpa using hw2
    subst hs
    simp [handleDelayedHide, settle, elapse, runCallback, hide]

/-- C18. Take any sequence of show requests, hide requests and timer elapses from an
initial state (no timer pending), under any props (in particular one fixed delay
configuration), followed by a last request under the props `p`.  Once every timeout still
pending after that last call has elapsed, no timer is pending (both fields are `null`,
the host's table is empty) and the overlay is shown if the last call was
`handleDelayedShow` and hidden if it was `handleDelayedHide`. -/
theorem last_request_wins (defaultOverlayShown : Bool) (nextHandle : Nat)
    (es : List (Props × Event)) (p : Props)
    (he : ∀ pe ∈ es, pe.2 = Event.requestShow ∨ pe.2 = Event.requestHide ∨
      ∃ k, pe.2 = Event.timerElapse k) :
    ((settle (run (es ++ [(p, Event.requestShow)])
          (initial defaultOverlayShown nextHandle))).comp =
        { state_show := true, _hoverShowDelay := none, _hoverHideDelay := none } ∧
      (settle (run (es ++ [(p, Event.requestShow)])
          (initial defaultOverlayShown nextHandle))).timeouts = []) ∧
    ((settle (run (es ++ [(p, Event.requestHide)])
          (initial defaultOverlayShown nextHandle))).comp =
        { state_show := false, _hoverShowDelay := none, _hoverHideDelay := none } ∧
      (settle (run (es ++ [(p, Event.requestHide)])
          (initial defaultOverlayShown nextHandle))).timeouts = []) := by
  have hd : ∀ pe ∈ es, pe.2.isDelayed = true :=
    fun pe hpe => isDelayed_of_kind pe.2 (he pe hpe)
  have hc := consistent_run es _ (consistent_initial defaultOverlayShown nextHandle)
  have hw := coupled_run es _ hd (consistent_initial _ _)
    (coupled_initial defaultOverlayShown nextHandle)
  have hs : run (es ++ [(p, Event.requestShow)]) (initial defaultOverlayShown nextHandle) =
      handleDelayedShow p (run es (initial defaultOverlayShown nextHandle)) := by
    simp [run, step]
  have hh : run (es ++ [(p, Event.requestHide)]) (initial defaultOverlayShown nextHandle) =
      handleDelayedHide p (run es (initial defaultOverlayShown nextHandle)) := by
    simp [run, step]
  rw [hs, hh]
  exact ⟨settle_after_show p _ hc hw, settle_after_hide p _ hc hw⟩

theorem last_request_wins_witness :
    (settle (run ([((⟨some 100, none, none⟩ : Props), Event.requestShow),
          ((⟨some 100, none, none⟩ : Props), Event.timerElapse 1),
          ((⟨some 100, none, none⟩ : Props), Event.requestHide)] ++
          [((⟨some 100, none, none⟩ : Props), Event.requestShow)])
        (initial false 1))).comp =
      { state_show := true, _hoverShowDelay := none, _hoverHideDelay := none } :=
  (last_request_wins false 1
    [(⟨some 100, none, none⟩, Event.requestShow), (⟨some 100, none, none⟩, Event.timerElapse 1),
      (⟨some 100, none, none⟩, Event.requestHide)]
    ⟨some 100, none, none⟩ (by simp)).1.1

/-! ## The scroll parent is found within two calls -/

theorem css_of_isElement (dom : Dom) (node : Option Nat) (h : isElement dom node = true) :
    ∃ n s, node = some n ∧ ∀ property, css dom node property =
      Except.ok (getPropertyValue s property) := by
  cases node with
  | none => simp [isElement, css] at h
  | some n =>
    simp only [isElement, css, List.get?_eq_getElem?] at h ⊢
    cases hg : dom[n]? with
    | none => simp [hg] at h
    | some nd =>
      cases hs : nd.style with
      | none => simp [hg, hs] at h
      | some st => exact ⟨n, st, rfl, fun property => by simp [hs]⟩

theorem getScrollParent_plain (fuel : Nat) (dom : Dom) (node : Option Nat) (p : Nat)
    (sn sp : Style)
    (hn : ∀ property, css dom node property = Except.ok (getPropertyValue sn property))
    (hpn : parentNode dom node = some p)
    (hp : ∀ property, css dom (some p) property = Except.ok (getPropertyValue sp property))
    (hskip : (sn.position == "absolute" && sp.position == "static") = false) :
    getScrollParent (fuel + 1) dom node =
      Except.ok (if overflowScrolls dom (some p) then p else document) := by
  have h1 : getPropertyValue sn "position" = sn.position := by simp [getPropertyValue]
  have h2 : getPropertyValue sp "position" = sp.position := by simp [getPropertyValue]
  simp only [getScrollParent, hn, hpn, hp, overflowScrolls, h1, h2, bind, Except.bind, pure,
    Except.pure]
  cases hov : overflowRegex_test (getPropertyValue sp "overflow" ++
      getPropertyValue sp "overflow-y" ++ getPropertyValue sp "overflow-x") <;>
    by_cases ha : sn.position = "absolute" <;>
    by_cases hst : sp.position = "static" <;>
    simp_all

/-- C19, as the code has it.  Let `node` be an element whose parent is an element and,
when the static-skip test holds for it (the node is `absolute`, the parent `static`) so that the grandparent is
consulted, whose grandparent is an element.  Then `getScrollParent(node)` returns within
two calls, one recursive call at most: a budget of two gives a result, every larger budget
gives the same, and a budget of one is enough when the static-skip test fails.  The result
is the document, or the parent, or (only after the static skip) the grandparent, and in
the last two cases the concatenated `overflow`, `overflow-y` and `overflow-x` of the
result contains `auto` or `scroll`. -/
theorem getScrollParent_bounded_and_sound (dom : Dom) (node : Nat) (fuel : Nat)
    (hn : isElement dom (some node) = true)
    (hp : isElement dom (parentNode dom (some node)) = true)
    (hg : css dom (some node) "position" = Except.ok "absolute" →
      css dom (parentNode dom (some node)) "position" = Except.ok "static" →
      isElement dom (parentNode dom (parentNode dom (some node))) = true) :
    ∃ r, getScrollParent 2 dom (some node) = Except.ok r ∧
      getScrollParent (fuel + 2) dom (some node) = Except.ok r ∧
      (¬ (css dom (some node) "position" = Except.ok "absolute" ∧
          css dom (parentNode dom (some node)) "position" = Except.ok "static") →
        getScrollParent 1 dom (some node) = Except.ok r ∧
          (r = document ∨
            (parentNode dom (some node) = some r ∧
              overflowScrolls dom (some r) = true))) ∧
      (r = document ∨
        (parentNode dom (some node) = some r ∧ overflowScrolls dom (some r) = true) ∨
        (parentNode dom (parentNode dom (some node)) = some r ∧
          overflowScrolls dom (some r) = true ∧
          css dom (some node) "position" = Except.ok "absolute" ∧
          css dom (parentNode dom (some node)) "position" = Except.ok "static")) := by
  obtain ⟨n, sn, hne, hcn⟩ := css_of_isElement dom _ hn
  obtain ⟨p, sp, hpe, hcp⟩ := css_of_isElement dom _ hp
  rw [hpe] at hcp
  have h1 : getPropertyValue sn "position" = sn.position := by simp [getPropertyValue]
  have h2 : getPropertyValue sp "position" = sp.position := by simp [getPropertyValue]
  by_cases hskip : sn.position = "absolute" ∧ sp.position = "static"
  · obtain ⟨ha, hst⟩ := hskip
    have hgp := hg (by rw [hcn, h1, ha]) (by rw [hpe, hcp, h2, hst])
    obtain ⟨g, sg, hge, hcg⟩ := css_of_isElement dom _ hgp
    rw [hpe] at hge
    rw [hpe, hge] at hcg
    have hrec : ∀ k, getScrollParent (k + 1) dom (some p) =
        Except.ok (if overflowScrolls dom (some g) then g else document) :=
      fun k => getScrollParent_plain k dom (some p) g sp sg hcp hge hcg
        (by simp [hst])
    have hfirst : ∀ k, getScrollParent (k + 2) dom (some node) =
        getScrollParent (k + 1) dom (some p) := by
      intro k
      rw [getScrollParent]
      simp only [hcn, hpe, hcp, h1, h2, ha, hst, bind, Except.bind, pure, Except.pure]
      simp
    refine ⟨if overflowScrolls dom (some g) then g else document, ?_, ?_, ?_, ?_⟩
    · rw [hfirst 0, hrec 0]
    · rw [hfirst fuel, hrec fuel]
    · intro hno
      exact absurd ⟨by rw [hcn, h1, ha], by rw [hpe, hcp, h2, hst]⟩ hno
    · by_cases ho : overflowScrolls dom (some g) = true
      · right; right
        rw [if_pos ho]
        exact ⟨by rw [hpe, hge], ho, by rw [hcn, h1, ha], by rw [hpe, hcp, h2, hst]⟩
      · left; simp [ho]
  · have hsk : (sn.position == "absolute" && sp.position == "static") = false := by
      by_cases ha : sn.position = "absolute"
      · have : sp.position ≠ "static" := fun h => hskip ⟨ha, h⟩
        simp [ha, this]
      · simp [ha]
    have hall : ∀ k, getScrollParent (k + 1) dom (some node) =
        Except.ok (if overflowScrolls dom (some p) then p else document) :=
      fun k => getScrollParent_plain k dom (some node) p sn sp hcn hpe hcp hsk
    have hres : (if overflowScrolls dom (some p) then p else document) = document ∨
        (parentNode dom (some node) = some (if overflowScrolls dom (some p) then p
            else document) ∧
          overflowScrolls dom (some (if overflowScrolls dom (some p) then p
            else document)) = true) := by
      by_cases ho : overflowScrolls dom (some p) = true
      · right; rw [if_pos ho]; exact ⟨hpe, ho⟩
      · left; simp [ho]
    refine ⟨if overflowScrolls dom (some p) then p else document, hall 1, hall (fuel + 1),
      fun _ => ⟨hall 0, hres⟩, ?_⟩
    rcases hres with h | h
    · exact Or.inl h
    · exact Or.inr (Or.inl h)

theorem getScrollParent_bounded_and_sound_witness :
    isElement absoluteDom (some 4) = true ∧
      isElement absoluteDom (parentNode absoluteDom (some 4)) = true ∧
      isElement absoluteDom (parentNode absoluteDom (parentNode absoluteDom (some 4))) = true ∧
      getScrollParent 2 absoluteDom (some 4) = Except.ok 2 ∧
      ∃ r, getScrollParent 2 absoluteDom (some 4) = Except.ok r ∧
        getScrollParent (5 + 2) absoluteDom (some 4) = Except.ok r :=
  have h := getScrollParent_bounded_and_sound absoluteDom 4 5 (by decide) (by decide)
    (fun _ _ => by decide)
  ⟨by decide, by decide, by decide, by decide, h.elim fun r hr => ⟨r, hr.1, hr.2.1⟩⟩

/-- C19 fails as stated.  The root element (node 1 of `nestedDom`) is `static` and its
parent exists: it is the document.  The grandparent is not consulted.  Yet
`getScrollParent` returns no result: the computed style of the document is asked for and
that throws, under a budget of one call, of two and of more. -/
theorem getScrollParent_root_element_counterexample :
    parentNode nestedDom (some 1) = some document ∧
      css nestedDom (some 1) "position" = Except.ok "static" ∧
      getScrollParent 1 nestedDom (some 1) = Except.error Abort.typeError ∧
      getScrollParent 2 nestedDom (some 1) = Except.error Abort.typeError ∧
      getScrollParent 7 nestedDom (some 1) = Except.error Abort.typeError := by
  decide

/-! ## The classifier without a related target -/

/-- C20. For every event on a well-formed document whose `relatedTarget` is absent,
`handleMouseOverOut` decides on `e.nativeEvent.toElement`: the handler is called (once)
exactly when `toElement` is absent too or is neither the current target nor one of its
descendants, and it is not called when `toElement` is the current target or one of its
descendants. -/
theorem classifier_falls_back_to_toElement {σ : Type} (dom : Dom) (hwf : WellFormed dom)
    (handler : MouseEvent → σ → σ) (e : MouseEvent) (s : σ)
    (hrel : e.relatedTarget = none) :
    (invocations dom e = 1 ↔
        (e.nativeEvent_toElement = none ∨
          ∃ r, e.nativeEvent_toElement = some r ∧ r ≠ e.currentTarget ∧
            ¬ Descendant dom e.currentTarget r)) ∧
      (invocations dom e = 0 ↔
        ∃ r, e.nativeEvent_toElement = some r ∧
          (r = e.currentTarget ∨ Descendant dom e.currentTarget r)) ∧
      (invocations dom e = 1 → handleMouseOverOut dom handler e s = handler e s) ∧
      (invocations dom e = 0 → handleMouseOverOut dom handler e s = s) := by
  cases hto : e.nativeEvent_toElement with
  | none => simp [invocations, handleMouseOverOut, hrel, hto]
  | some r =>
    by_cases hin : r = e.currentTarget ∨ Descendant dom e.currentTarget r
    · have hc : r = e.currentTarget ∨ contains dom e.currentTarget r = true := by
        rcases hin with h1 | h1
        · exact Or.inl h1
        · exact Or.inr ((contains_iff dom hwf _ _).mpr (Or.inr h1))
      have hinv : invocations dom e = 0 := by
        rcases hc with hc | hc <;> simp [invocations, handleMouseOverOut, hrel, hto, hc]
      have hst : handleMouseOverOut dom handler e s = s := by
        rcases hc with hc | hc <;> simp [handleMouseOverOut, hrel, hto, hc]
      refine ⟨?_, ?_, ?_, fun _ => hst⟩
      · rw [hinv]
        constructor
        · intro h; omega
        · rintro (h | ⟨r2, hr2, hne, hnd⟩)
          · cases h
          · cases hr2
            rcases hin with h1 | h1
            · exact absurd h1 hne
            · exact absurd h1 hnd
      · rw [hinv]
        exact ⟨fun _ => ⟨r, rfl, hin⟩, fun _ => rfl⟩
      · rw [hinv]; intro h; omega
    · have hne : r ≠ e.currentTarget := fun h => hin (Or.inl h)
      have hnd : ¬ Descendant dom e.currentTarget r := fun h => hin (Or.inr h)
      have hc : contains dom e.currentTarget r = false := by
        cases hcv : contains dom e.currentTarget r with
        | false => rfl
        | true =>
          rcases (contains_iff dom hwf _ _).mp hcv with h1 | h1
          · exact absurd h1 hne
          · exact absurd h1 hnd
      have hinv : invocations dom e = 1 := by
        simp [invocations, handleMouseOverOut, hrel, hto, hc, hne]
      have hst : handleMouseOverOut dom handler e s = handler e s := by
        simp [handleMouseOverOut, hrel, hto, hc, hne]
      refine ⟨?_, ?_, fun _ => hst, ?_⟩
      · rw [hinv]
        exact ⟨fun _ => Or.inr ⟨r, rfl, hne, hnd⟩, fun _ => rfl⟩
      · rw [hinv]
        constructor
        · intro h; omega
        · rintro ⟨r2, hr2, h2⟩
          cases hr2
          exact absurd h2 hin
      · rw [hinv]; intro h; omega

theorem classifier_falls_back_to_toElement_witness :
    WellFormed nestedDom ∧
      invocations nestedDom ⟨2, none, some 3⟩ = 0 ∧
      handleMouseOverOut nestedDom (fun _ (k : Nat) => k + 7) ⟨2, none, some 3⟩ 5 = 5 :=
  have h := classifier_falls_back_to_toElement nestedDom nestedDom_wellFormed
    (fun _ (k : Nat) => k + 7) ⟨2, none, some 3⟩ 5 rfl
  ⟨nestedDom_wellFormed, by decide, h.2.2.2 (by decide)⟩

/-! ## Rendering: when it succeeds and what it wires -/

theorem render_ok_inv (state_show : Bool) (props : RenderProps) (out : Rendered)
    (h : render state_show props = Except.ok out) :
    ∃ child, props.children = [child] ∧
      (state_show = true → ∃ e, props.overlay = some (OverlayNode.element e) ∧
        out.triggerProps.aria_describedby = some e.id) ∧
      (state_show = false → out.triggerProps.aria_describedby = none) ∧
      out._overlay = makeOverlay state_show props.overlay ∧
      out.child = child ∧
      out.triggerProps.onClick =
        (if isOneOf TriggerMode.click props.trigger then
          createChainedFunction
            [createChainedFunction [externalFn child.onClick, externalFn props.onClick],
              some [Handler.handleToggle]]
        else createChainedFunction [externalFn child.onClick, externalFn props.onClick]) ∧
      out.triggerProps.onMouseOver =
        (if isOneOf TriggerMode.hover props.trigger then
          createChainedFunction [externalFn child.onMouseOver, externalFn props.onMouseOver,
            some [Handler.handleMouseOver]]
        else none) ∧
      out.triggerProps.onMouseOut =
        (if isOneOf TriggerMode.hover props.trigger then
          createChainedFunction [externalFn child.onMouseOut, externalFn props.onMouseOut,
            some [Handler.handleMouseOut]]
        else none) ∧
      out.triggerProps.onFocus =
        (if isOneOf TriggerMode.focus props.trigger then
          createChainedFunction [externalFn child.onFocus, externalFn props.onFocus,
            some [Handler.handleDelayedShow]]
        else none) ∧
      out.triggerProps.onBlur =
        (if isOneOf TriggerMode.focus props.trigger then
          createChainedFunction [externalFn child.onBlur, externalFn props.onBlur,
            some [Handler.handleDelayedHide]]
        else none) ∧
      out.warnings =
        (if isOneOf TriggerMode.hover props.trigger then
          warning (!(props.trigger == Trigger.one TriggerMode.hover)) Warning.hoverOnly
        else []) := by
  obtain ⟨trigger, overlay, children, b1, b2, b3, b4, b5⟩ := props
  match children, h with
  | [child], h =>
    refine ⟨child, rfl, ?_⟩
    cases state_show with
    | false =>
      simp only [render, Children_only, bind, Except.bind, pure, Except.pure] at h
      simp only [Bool.false_eq_true, if_false, Except.ok.injEq] at h
      subst h
      simp
    | true =>
      match overlay, h with
      | some (OverlayNode.element e), h =>
        simp only [render, Children_only, overlay_props_id, bind, Except.bind, pure,
          Except.pure] at h
        simp only [if_true, Except.ok.injEq] at h
        subst h
        simp
      | some (OverlayNode.text t), h =>
        simp [render, Children_only, overlay_props_id, bind, Except.bind] at h
      | none, h =>
        simp [render, Children_only, overlay_props_id, bind, Except.bind] at h
  | [], h => simp [render, Children_only, bind, Except.bind] at h
  | _ :: _ :: _, h => simp [render, Children_only, bind, Except.bind] at h

theorem render_ok_of (state_show : Bool) (props : RenderProps) (child : ChildProps)
    (hc : props.children = [child])
    (ho : state_show = true → ∃ e, props.overlay = some (OverlayNode.element e)) :
    ∃ out, render state_show props = Except.ok out := by
  obtain ⟨trigger, overlay, children, b1, b2, b3, b4, b5⟩ := props
  simp only at hc ho
  subst hc
  cases state_show with
  | false => exact ⟨_, rfl⟩
  | true =>
    obtain ⟨e, he⟩ := ho rfl
    subst he
    exact ⟨_, rfl⟩

theorem indexOf_nonneg_or (xs : List TriggerMode) (x : TriggerMode) :
    indexOf xs x = -1 ∨ 0 ≤ indexOf xs x := by
  induction xs with
  | nil => left; rfl
  | cons y ys ih =>
    unfold indexOf
    by_cases hy : y = x
    · right; simp [hy]
    · rcases ih with h | h
      · left; simp [hy, h]
      · right
        have hne : indexOf ys x ≠ -1 := by omega
        simp only [beq_iff_eq, hy, if_false, hne]
        omega

theorem indexOf_nonneg_iff (xs : List TriggerMode) (x : TriggerMode) :
    0 ≤ indexOf xs x ↔ x ∈ xs := by
  induction xs with
  | nil => simp [indexOf]
  | cons y ys ih =>
    unfold indexOf
    by_cases hy : y = x
    · simp [hy]
    · have hxy : ¬ x = y := fun h => hy h.symm
      rcases indexOf_nonneg_or ys x with h | h
      · have hn : ¬ (0 ≤ indexOf ys x) := by omega
        have hm : x ∉ ys := fun hmem => hn (ih.mpr hmem)
        simp [hy, h, hxy, hm]
      · have hne : indexOf ys x ≠ -1 := by omega
        have hm : x ∈ ys := ih.mp h
        simp only [beq_iff_eq, hy, if_false, hne, List.mem_cons, hxy, false_or, hm, iff_true]
        omega

theorem isOneOf_iff_has (mode : TriggerMode) (t : Trigger) :
    isOneOf mode t = true ↔ t.has mode := by
  cases t with
  | one m =>
    simp only [isOneOf, Trigger.has, beq_iff_eq]
    exact ⟨fun h => h.symm, fun h => h.symm⟩
  | many ms =>
    simp only [isOneOf, Trigger.has, decide_eq_true_eq, ge_iff_le]
    exact indexOf_nonneg_iff ms mode

theorem chainOf_chain2 (a b : Option Nat) :
    chainOf (createChainedFunction [externalFn a, externalFn b]) =
      chainOf (externalFn a) ++ chainOf (externalFn b) := by
  cases a <;> cases b <;> simp [createChainedFunction, externalFn, chainOf]

theorem chainOf_chain3 (a b : Option Nat) (h : Handler) :
    createChainedFunction [externalFn a, externalFn b, some [h]] =
      some (chainOf (externalFn a) ++ chainOf (externalFn b) ++ [h]) := by
  cases a <;> cases b <;> simp [createChainedFunction, externalFn, chainOf]

theorem chainOf_chainClick (a b : Option Nat) (h : Handler) :
    createChainedFunction [createChainedFunction [externalFn a, externalFn b], some [h]] =
      some (chainOf (externalFn a) ++ chainOf (externalFn b) ++ [h]) := by
  cases a <;> cases b <;> simp [createChainedFunction, externalFn, chainOf]

theorem mem_chainOf_externalFn (a : Option Nat) (x : Handler)
    (hx : x ∈ chainOf (externalFn a)) : ∃ id, x = Handler.external id := by
  cases a with
  | none => simp [externalFn, chainOf] at hx
  | some id => exact ⟨id, by simpa [externalFn, chainOf] using hx⟩

/-! ## The hover-only advisory -/

/-- C12 fails on the code for the one-element list.  With the trigger `['hover']`
`render` emits no advisory, in either visibility state, although the configured set of
modes is exactly hover; with the single value `'hover'` it emits the advisory; with
`['hover', 'focus']` it emits none.  The handlers attached and the overlay element are the
same for `'hover'` and `['hover']`. -/
theorem hover_only_list_gets_no_advisory (state_show : Bool) :
    (render state_show (sampleProps (Trigger.many [TriggerMode.hover]))).map
        (fun r => r.warnings) = Except.ok [] ∧
      (render state_show (sampleProps (Trigger.one TriggerMode.hover))).map
        (fun r => r.warnings) = Except.ok [Warning.hoverOnly] ∧
      (render state_show
        (sampleProps (Trigger.many [TriggerMode.hover, TriggerMode.focus]))).map
        (fun r => r.warnings) = Except.ok [] ∧
      (render state_show (sampleProps (Trigger.many [TriggerMode.hover]))).map
          (fun r => (r.triggerProps, r._overlay)) =
        (render state_show (sampleProps (Trigger.one TriggerMode.hover))).map
          (fun r => (r.triggerProps, r._overlay)) := by
  cases state_show <;> decide

/-! ## Wiring of the trigger modes -/

/-- C13. Whenever `render` succeeds: `isOneOf(one, of)` holds exactly when the
configuration `of` contains the mode (an array containing it, or the single value equal to
it); `triggerProps.onClick` chains the outside click handlers and then `handleToggle`
exactly when click is configured; `onMouseOver` and `onMouseOut` are set, ending in
`handleMouseOver` and `handleMouseOut`, exactly when hover is configured, and absent
otherwise; `onFocus` and `onBlur` are set, ending in `handleDelayedShow` and
`handleDelayedHide`, exactly when focus is configured, and absent otherwise.  The default
configuration contains hover and focus and not click. -/
theorem trigger_mode_wiring (state_show : Bool) (props : RenderProps) (out : Rendered)
    (h : render state_show props = Except.ok out) :
    (∀ mode, isOneOf mode props.trigger = true ↔ props.trigger.has mode) ∧
      chainOf out.triggerProps.onClick =
        chainOf (externalFn out.child.onClick) ++ chainOf (externalFn props.onClick) ++
          (if isOneOf TriggerMode.click props.trigger then [Handler.handleToggle] else []) ∧
      out.triggerProps.onMouseOver =
        (if isOneOf TriggerMode.hover props.trigger then
          some (chainOf (externalFn out.child.onMouseOver) ++
            chainOf (externalFn props.onMouseOver) ++ [Handler.handleMouseOver])
        else none) ∧
      out.triggerProps.onMouseOut =
        (if isOneOf TriggerMode.hover props.trigger then
          some (chainOf (externalFn out.child.onMouseOut) ++
            chainOf (externalFn props.onMouseOut) ++ [Handler.handleMouseOut])
        else none) ∧
      out.triggerProps.onFocus =
        (if isOneOf TriggerMode.focus props.trigger then
          some (chainOf (externalFn out.child.onFocus) ++
            chainOf (externalFn props.onFocus) ++ [Handler.handleDelayedShow])
        else none) ∧
      out.triggerProps.onBlur =
        (if isOneOf TriggerMode.focus props.trigger then
          some (chainOf (externalFn out.child.onBlur) ++
            chainOf (externalFn props.onBlur) ++ [Handler.handleDelayedHide])
        else none) ∧
      (Handler.handleToggle ∈ chainOf out.triggerProps.onClick ↔
        props.trigger.has TriggerMode.click) ∧
      (Handler.handleMouseOver ∈ chainOf out.triggerProps.onMouseOver ↔
        props.trigger.has TriggerMode.hover) ∧
      (Handler.handleMouseOut ∈ chainOf out.triggerProps.onMouseOut ↔
        props.trigger.has TriggerMode.hover) ∧
      (Handler.handleDelayedShow ∈ chainOf out.triggerProps.onFocus ↔
        props.trigger.has TriggerMode.focus) ∧
      (Handler.handleDelayedHide ∈ chainOf out.triggerProps.onBlur ↔
        props.trigger.has TriggerMode.focus) ∧
      (defaultTrigger.has TriggerMode.hover ∧ defaultTrigger.has TriggerMode.focus ∧
        ¬ defaultTrigger.has TriggerMode.click) := by
  obtain ⟨child, _, _, _, _, hchild, hclick, hover, hout, hfocus, hblur, _⟩ :=
    render_ok_inv state_show props out h
  have hext : ∀ (a : Option Nat) (x : Handler), (∀ id, x ≠ Handler.external id) →
      x ∉ chainOf (externalFn a) := by
    intro a x hx hmem
    obtain ⟨id, hid⟩ := mem_chainOf_externalFn a x hmem
    exact hx id hid
  have hc : chainOf out.triggerProps.onClick =
        chainOf (externalFn out.child.onClick) ++ chainOf (externalFn props.onClick) ++
          (if isOneOf TriggerMode.click props.trigger then [Handler.handleToggle] else []) := by
    rw [hclick, hchild]
    by_cases hm : isOneOf TriggerMode.click props.trigger = true
    · simp only [hm, if_true, chainOf_chainClick]; rfl
    · simp only [hm, if_false, chainOf_chain2, Bool.false_eq_true, List.append_nil]
  have h1 : out.triggerProps.onMouseOver =
        (if isOneOf TriggerMode.hover props.trigger then
          some (chainOf (externalFn out.child.onMouseOver) ++
            chainOf (externalFn props.onMouseOver) ++ [Handler.handleMouseOver])
        else none) := by
    rw [hover, hchild, chainOf_chain3]
  have h2 : out.triggerProps.onMouseOut =
        (if isOneOf TriggerMode.hover props.trigger then
          some (chainOf (externalFn out.child.onMouseOut) ++
            chainOf (externalFn props.onMouseOut) ++ [Handler.handleMouseOut])
        else none) := by
    rw [hout, hchild, chainOf_chain3]
  have h3 : out.triggerProps.onFocus =
        (if isOneOf TriggerMode.focus props.trigger then
          some (chainOf (externalFn out.child.onFocus) ++
            chainOf (externalFn props.onFocus) ++ [Handler.handleDelayedShow])
        else none) := by
    rw [hfocus, hchild, chainOf_chain3]
  have h4 : out.triggerProps.onBlur =
        (if isOneOf TriggerMode.focus props.trigger then
          some (chainOf (externalFn out.child.onBlur) ++
            chainOf (externalFn props.onBlur) ++ [Handler.handleDelayedHide])
        else none) := by
    rw [hblur, hchild, chainOf_chain3]
  refine ⟨fun mode => isOneOf_iff_has mode props.trigger, hc, h1, h2, h3, h4, ?_, ?_, ?_, ?_,
    ?_, ?_⟩
  · rw [hc, ← isOneOf_iff_has]
    have ha := hext out.child.onClick Handler.handleToggle (by intro id; simp)
    have hb := hext props.onClick Handler.handleToggle (by intro id; simp)
    by_cases hm : isOneOf TriggerMode.click props.trigger = true <;> simp [hm, ha, hb]
  · rw [h1, ← isOneOf_iff_has]
    have ha := hext out.child.onMouseOver Handler.handleMouseOver (by intro id; simp)
    have hb := hext props.onMouseOver Handler.handleMouseOver (by intro id; simp)
    by_cases hm : isOneOf TriggerMode.hover props.trigger = true <;>
      simp [hm, ha, hb, chainOf]
  · rw [h2, ← isOneOf_iff_has]
    have ha := hext out.child.onMouseOut Handler.handleMouseOut (by intro id; simp)
    have hb := hext props.onMouseOut Handler.handleMouseOut (by intro id; simp)
    by_cases hm : isOneOf TriggerMode.hover props.trigger = true <;>
      simp [hm, ha, hb, chainOf]
  · rw [h3, ← isOneOf_iff_has]
    have ha := hext out.child.onFocus Handler.handleDelayedShow (by intro id; simp)
    have hb := hext props.onFocus Handler.handleDelayedShow (by intro id; simp)
    by_cases hm : isOneOf TriggerMode.focus props.trigger = true <;>
      simp [hm, ha, hb, chainOf]
  · rw [h4, ← isOneOf_iff_has]
    have ha := hext out.child.onBlur Handler.handleDelayedHide (by intro id; simp)
    have hb := hext props.onBlur Handler.handleDelayedHide (by intro id; simp)
    by_cases hm : isOneOf TriggerMode.focus props.trigger = true <;>
      simp [hm, ha, hb, chainOf]
  · simp [defaultTrigger, Trigger.has]

theorem trigger_mode_wiring_witness :
    render false (sampleProps (Trigger.many [TriggerMode.click, TriggerMode.focus])) =
        Except.ok
          { child := { onClick := some 7, onMouseOver := none, onMouseOut := none,
                       onFocus := none, onBlur := none }
            triggerProps :=
              { aria_describedby := none
                onClick := some [Handler.external 7, Handler.handleToggle]
                onMouseOver := none
                onMouseOut := none
                onFocus := some [Handler.handleDelayedShow]
                onBlur := some [Handler.handleDelayedHide] }
            _overlay := { showProp := false, onHide := Handler.handleHide,
                          children := some (OverlayNode.element { id := some "tip" }) }
            warnings := [] } ∧
      (Handler.handleToggle ∈ [Handler.external 7, Handler.handleToggle] ↔
        (Trigger.many [TriggerMode.click, TriggerMode.focus]).has TriggerMode.click) :=
  ⟨by decide,
    (trigger_mode_wiring false
      (sampleProps (Trigger.many [TriggerMode.click, TriggerMode.focus])) _ rfl).2.2.2.2.2.2.1⟩

/-! ## Configuration errors -/

/-- C15, as the code has it.  For every configuration: `render` throws, and produces
nothing, whenever the number of children is not exactly one, in either visibility state,
and whenever `overlay` is absent while the overlay is shown.  With exactly one child it
succeeds in the hidden state, also when `overlay` is absent, and it succeeds in either
state when `overlay` is an element. -/
theorem render_configuration_errors (state_show : Bool) (props : RenderProps) :
    (props.children.length ≠ 1 →
        render state_show props = Except.error Abort.typeError) ∧
      (state_show = true → props.overlay = none →
        render state_show props = Except.error Abort.typeError) ∧
      (props.children.length = 1 → state_show = false →
        ∃ out, render state_show props = Except.ok out) ∧
      (props.children.length = 1 → (∃ e, props.overlay = some (OverlayNode.element e)) →
        ∃ out, render state_show props = Except.ok out) := by
  refine ⟨?_, ?_, ?_, ?_⟩
  · intro hlen
    obtain ⟨trigger, overlay, children, b1, b2, b3, b4, b5⟩ := props
    rcases children with _ | ⟨c, _ | ⟨c2, cs⟩⟩
    · simp [render, Children_only, bind, Except.bind]
    · simp at hlen
    · simp [render, Children_only, bind, Except.bind]
  · intro hs ho
    obtain ⟨trigger, overlay, children, b1, b2, b3, b4, b5⟩ := props
    simp only at ho
    subst hs ho
    rcases children with _ | ⟨c, _ | ⟨c2, cs⟩⟩ <;>
      simp [render, Children_only, overlay_props_id, bind, Except.bind]
  · intro hlen hs
    obtain ⟨child, hc⟩ := List.length_eq_one.mp hlen
    exact render_ok_of state_show props child hc (fun h => by rw [hs] at h; cases h)
  · intro hlen ho
    obtain ⟨child, hc⟩ := List.length_eq_one.mp hlen
    exact render_ok_of state_show props child hc (fun _ => ho)

theorem render_configuration_errors_witness :
    render true { sampleProps defaultTrigger with children := [] } =
        Except.error Abort.typeError ∧
      render true { sampleProps defaultTrigger with overlay := none } =
        Except.error Abort.typeError ∧
      (render false { sampleProps defaultTrigger with overlay := none }).toBool = true ∧
      (render true (sampleProps defaultTrigger)).toBool = true :=
  ⟨(render_configuration_errors true
      { sampleProps defaultTrigger with children := [] }).1 (by decide),
    (render_configuration_errors true
      { sampleProps defaultTrigger with overlay := none }).2.1 rfl rfl,
    ((render_configuration_errors false
      { sampleProps defaultTrigger with overlay := none }).2.2.1 (by decide) rfl).elim
      fun _ ho => by rw [ho]; rfl,
    ((render_configuration_errors true (sampleProps defaultTrigger)).2.2.2 (by decide)
      ⟨{ id := some "tip" }, rfl⟩).elim fun _ ho => by rw [ho]; rfl⟩

/-- C15 fails as stated.  In the hidden (default) state, with exactly one child and no
`overlay`, `render` does not throw: it returns the cloned child, without
`aria-describedby`, and an Overlay element without content. -/
theorem render_without_overlay_counterexample :
    render false
        { trigger := defaultTrigger
          overlay := none
          children := [{ onClick := none, onMouseOver := none, onMouseOut := none,
                         onFocus := none, onBlur := none }]
          onBlur := none, onClick := none, onFocus := none, onMouseOut := none,
          onMouseOver := none } =
      Except.ok
        { child := { onClick := none, onMouseOver := none, onMouseOut := none,
                     onFocus := none, onBlur := none }
          triggerProps :=
            { aria_describedby := none
              onClick := none
              onMouseOver := some [Handler.handleMouseOver]
              onMouseOut := some [Handler.handleMouseOut]
              onFocus := some [Handler.handleDelayedShow]
              onBlur := some [Handler.handleDelayedHide] }
          _overlay := { showProp := false, onHide := Handler.handleHide, children := none }
          warnings := [] } := by
  decide

/-! ## Accessibility linkage -/

/-- C16. Whenever `render` succeeds: when the overlay is shown, `triggerProps` holds
`aria-describedby` with the value `overlay.props.id`; when it is hidden, `triggerProps`
has no `aria-describedby`; and the Overlay element is passed `show` equal to the current
visibility (and `handleHide` as `onHide`). -/
theorem aria_describedby_follows_visibility (state_show : Bool) (props : RenderProps)
    (out : Rendered) (h : render state_show props = Except.ok out) :
    (state_show = true →
        ∃ e, props.overlay = some (OverlayNode.element e) ∧
          out.triggerProps.aria_describedby = some e.id) ∧
      (state_show = false → out.triggerProps.aria_describedby = none) ∧
      (out.triggerProps.aria_describedby ≠ none ↔ state_show = true) ∧
      out._overlay.showProp = state_show ∧
      out._overlay.onHide = Handler.handleHide := by
  obtain ⟨child, _, hs, hh, hov, _⟩ := render_ok_inv state_show props out h
  refine ⟨hs, hh, ?_, by rw [hov]; rfl, by rw [hov]; rfl⟩
  cases state_show with
  | false => simp [hh rfl]
  | true =>
    obtain ⟨e, _, he⟩ := hs rfl
    simp [he]

theorem aria_describedby_follows_visibility_witness :
    render true (sampleProps defaultTrigger) =
        Except.ok
          { child := { onClick := some 7, onMouseOver := none, onMouseOut := none,
                       onFocus := none, onBlur := none }
            triggerProps :=
              { aria_describedby := some (some "tip")
                onClick := some [Handler.external 7]
                onMouseOver := some [Handler.handleMouseOver]
                onMouseOut := some [Handler.handleMouseOut]
                onFocus := some [Handler.handleDelayedShow]
                onBlur := some [Handler.handleDelayedHide] }
            _overlay := { showProp := true, onHide := Handler.handleHide,
                          children := some (OverlayNode.element { id := some "tip" }) }
            warnings := [] } ∧
      (∃ e, (sampleProps defaultTrigger).overlay = some (OverlayNode.element e) ∧
        some (some "tip") = some e.id) :=
  ⟨by decide,
    ((aria_describedby_follows_visibility true (sampleProps defaultTrigger)
      { child := { onClick := some 7, onMouseOver := none, onMouseOut := none,
                   onFocus := none, onBlur := none }
        triggerProps :=
          { aria_describedby := some (some "tip")
            onClick := some [Handler.external 7]
            onMouseOver := some [Handler.handleMouseOver]
            onMouseOut := some [Handler.handleMouseOut]
            onFocus := some [Handler.handleDelayedShow]
            onBlur := some [Handler.handleDelayedHide] }
        _overlay := { showProp := true, onHide := Handler.handleHide,
                      children := some (OverlayNode.element { id := some "tip" }) }
        warnings := [] } (by decide)).1 rfl)⟩

end OverlayTrigger
